import Mathlib

/-!
Shallow embedding of the PDFInvExtractor repository's invoice-document
parser and sync client, together with theorems settling the claims of the
natural-language specification against it.

The embedding mirrors the Python sources:
  - `Claude` namespace: claude_InvDataEx.py (extract_header_from_pdf,
    extract_items_from_pdf, process_pdf);
  - `Legacy` namespace: InvDataEx.py (process_pdf);
  - `Svc` namespace: the held ServiceAware variant (src/unnamed/part_000,
    process_pdf's line-item loop);
  - `Grist` namespace: grist_uploader.py (main's per-pair bookkeeping).

Python regular-expression searches are hand-compiled to deterministic
scanners over the character list of a line, reproducing the leftmost and
greedy/lazy backtracking behaviour of the specific patterns that the
source uses.  A page of text is a `List String` of its lines, a document a
`List (List String)` of its pages, matching the spec's Text Line Source.
-/

namespace PdfInv

/-! ### Python string primitives -/

/-- Python `str.isspace`-style test used by `str.strip` and `\s`. -/
def isWs (c : Char) : Bool := c = ' ' || c = '\t' || c = '\n' || c = '\x0d'

/-- Regex word character (for `\b` boundaries): `[A-Za-z0-9_]`. -/
def isWordChar (c : Char) : Bool := c.isAlphanum || c = '_'

/-- A character of the decimal-token class `[0-9,.]`. -/
def isDecChar (c : Char) : Bool := c.isDigit || c = ',' || c = '.'

def dropWhileWs (cs : List Char) : List Char := cs.dropWhile isWs

/-- Python `str.strip()` on a character list. -/
def stripL (cs : List Char) : List Char :=
  ((cs.dropWhile isWs).reverse.dropWhile isWs).reverse

/-- Python `str.strip()`. -/
def pyStrip (s : String) : String := ⟨stripL s.data⟩

/-- Python `str.lower()` (ASCII is all the sources need). -/
def pyLower (s : String) : String := ⟨s.data.map Char.toLower⟩

/-- `needle in hay` on character lists (Python substring containment). -/
def containsL (hay needle : List Char) : Bool :=
  match hay with
  | [] => needle.isEmpty
  | _ :: t => needle.isPrefixOf hay || containsL t needle

/-- Python `needle in hay` for strings. -/
def pyContains (hay needle : String) : Bool := containsL hay.data needle.data

/-- Case-insensitive containment (`needle.lower() in hay.lower()`). -/
def pyContainsCI (hay needle : String) : Bool :=
  containsL (hay.data.map Char.toLower) (needle.data.map Char.toLower)

/-- Python `hay.startswith needle`. -/
def pyStartsWith (hay needle : String) : Bool := needle.data.isPrefixOf hay.data

/-- Python `str.replace old new` (all occurrences, left to right), `old ≠ ""`;
the fuel argument (the input length at the top call) only forces structural
termination and is never exhausted. -/
def replaceLF (old new : List Char) : Nat → List Char → List Char
  | 0, cs => cs
  | _ + 1, [] => []
  | f + 1, c :: t =>
    if old.isPrefixOf (c :: t) then
      new ++ replaceLF old new f (t.drop (old.length - 1))
    else
      c :: replaceLF old new f t

def replaceL (old new cs : List Char) : List Char := replaceLF old new cs.length cs

def pyReplace (s old new : String) : String := ⟨replaceL old.data new.data s.data⟩

/-- Python `sep.join parts`. -/
def pyJoin (sep : String) (parts : List String) : String :=
  String.intercalate sep parts

/-- Python `str.split(sep)` on a non-empty separator (fuel as above). -/
def splitOnLF (sep : List Char) : Nat → List Char → List (List Char)
  | 0, _ => [[]]
  | _ + 1, [] => [[]]
  | f + 1, c :: t =>
    if sep.isPrefixOf (c :: t) then
      [] :: splitOnLF sep f (t.drop (sep.length - 1))
    else
      match splitOnLF sep f t with
      | [] => [[c]]
      | h :: r => (c :: h) :: r

def splitOnL (sep cs : List Char) : List (List Char) := splitOnLF sep cs.length cs

def pySplit (s sep : String) : List String :=
  (splitOnL sep.data s.data).map fun cs => ⟨cs⟩

/-- Python `str.strip(chars)`: strip the given characters from both ends. -/
def stripCharsL (bad : List Char) (cs : List Char) : List Char :=
  ((cs.dropWhile (bad.contains ·)).reverse.dropWhile (bad.contains ·)).reverse

def pyStripChars (s : String) (bad : List Char) : String := ⟨stripCharsL bad s.data⟩

/-- Python `int` on a string of decimal digits. -/
def digitsToNat (cs : List Char) : Nat :=
  cs.foldl (fun n c => 10 * n + (c.toNat - '0'.toNat)) 0

def pyInt (s : String) : Nat := digitsToNat s.data

/-- `dict.fromkeys`: deduplicate keeping the first occurrence of each entry
(`seen` carries the keys already emitted). -/
def dedupFirstSeenAux (seen : List String) : List String → List String
  | [] => []
  | x :: xs =>
    if x ∈ seen then dedupFirstSeenAux seen xs
    else x :: dedupFirstSeenAux (x :: seen) xs

def dedupFirstSeen (l : List String) : List String := dedupFirstSeenAux [] l

end PdfInv

namespace PdfInv

/-! ### Hand-compiled regular expressions

Each Python regular expression used by the sources is compiled by hand to a
deterministic scanner.  `search`-style helpers try the pattern at every
start position, left to right, reproducing the leftmost-match rule; greedy
and lazy quantifier backtracking is worked out per pattern (documented at
each definition). -/

/-- Try a pattern at every start position, left to right (like re.search). -/
def scanFirst (p : List Char → Option α) : List Char → Option α
  | [] => p []
  | c :: t =>
    match p (c :: t) with
    | some a => some a
    | none => scanFirst p t

/-- Invoice-number pattern `SC` `\d` x5 `-` `\d` x2 `-` `\d` x2, match at
position (exact counts, no backtracking). -/
def matchSCAt : List Char → Option (List Char)
  | 'S' :: 'C' :: a :: b :: c :: d :: e :: '-' :: f :: g :: '-' :: h :: i :: _ =>
    if a.isDigit && b.isDigit && c.isDigit && d.isDigit && e.isDigit &&
       f.isDigit && g.isDigit && h.isDigit && i.isDigit then
      some ['S', 'C', a, b, c, d, e, '-', f, g, '-', h, i]
    else none
  | _ => none

/-- re.search of the invoice-number pattern; group 1 is the whole match. -/
def searchSC (s : String) : Option String :=
  (scanFirst matchSCAt s.data).map fun cs => ⟨cs⟩

/-- The `-Mon-yy` tail of the date pattern: `-` `[A-Za-z]` x3 `-` `\d` x2.
Returns the matched text and the remaining characters. -/
def matchDateTail : List Char → Option (List Char × List Char)
  | '-' :: a :: b :: c :: '-' :: d :: e :: rest =>
    if a.isAlpha && b.isAlpha && c.isAlpha && d.isDigit && e.isDigit then
      some (['-', a, b, c, '-', d, e], rest)
    else none
  | _ => none

/-- Date pattern `\d` x1-2 `-` `[A-Za-z]` x3 `-` `\d` x2 at a position:
the day is greedy, so two digits are preferred over one. -/
def matchDateAt : List Char → Option (List Char × List Char)
  | [] => none
  | d1 :: rest =>
    if d1.isDigit then
      match rest with
      | d2 :: rest2 =>
        if d2.isDigit then
          match matchDateTail rest2 with
          | some (t, rem) => some (d1 :: d2 :: t, rem)
          | none => (matchDateTail rest).map fun (t, rem) => (d1 :: t, rem)
        else (matchDateTail rest).map fun (t, rem) => (d1 :: t, rem)
      | [] => none
    else none

/-- re.search of the date pattern without word boundaries (first match),
as used by claude_InvDataEx.py. -/
def searchDate (s : String) : Option String :=
  (scanFirst (fun cs => (matchDateAt cs).map (·.1)) s.data).map fun cs => ⟨cs⟩

/-- Date pattern wrapped in `\b` boundaries, tried at one position given the
previous character: both ends must sit at word boundaries. -/
def matchDateWBAt (prev : Option Char) (cs : List Char) : Option (List Char × List Char) :=
  if (prev.map isWordChar).getD false then none
  else
    match matchDateAt cs with
    | some (t, rem) =>
      match rem with
      | [] => some (t, rem)
      | c :: _ => if isWordChar c then none else some (t, rem)
    | none => none

/-- re.findall of the `\b`-bounded date pattern (non-overlapping matches,
left to right), as used by InvDataEx.py (fuel as above). -/
def findAllDatesWB (prev : Option Char) : Nat → List Char → List (List Char)
  | 0, _ => []
  | _ + 1, [] => []
  | f + 1, c :: t =>
    match matchDateWBAt prev (c :: t) with
    | some (m, _) =>
      m :: findAllDatesWB (some (m.getLastD c)) f (t.drop (m.length - 1))
    | none => findAllDatesWB (some c) f t

def pyFindAllDates (s : String) : List String :=
  (findAllDatesWB none s.data.length s.data).map fun cs => ⟨cs⟩

/-- Literal-prefix test, case-insensitively (ASCII), for IGNORECASE literals. -/
def ciPrefix (lit : List Char) (cs : List Char) : Bool :=
  lit.isPrefixOf (cs.take lit.length |>.map Char.toLower)

/-- `Dated\s+(` date `)`: the literal, at least one whitespace, then the
date pattern (whitespace is greedy; a digit must follow, so no backtracking). -/
def matchDatedAt (cs : List Char) : Option (List Char) :=
  if ("Dated".data).isPrefixOf cs then
    let rest := cs.drop 5
    let ws := rest.takeWhile isWs
    if ws.isEmpty then none
    else (matchDateAt (rest.drop ws.length)).map (·.1)
  else none

def searchDatedDate (s : String) : Option String :=
  (scanFirst matchDatedAt s.data).map fun cs => ⟨cs⟩

end PdfInv

namespace PdfInv

/-- Greedy decimal token at a position, for `[0-9,.]+\.\d` x2: the class run
is maximal and backtracks to the largest split where a `.` is followed by two
digits, so the token is the longest class prefix ending in `.dd`. -/
def decTokenAt (cs : List Char) : Option (List Char) :=
  let r := cs.takeWhile isDecChar
  let k? := (List.range r.length).reverse.find? fun k =>
    decide (1 ≤ k) && (r.getD k ' ') = '.' &&
    (r.getD (k + 1) ' ').isDigit && (r.getD (k + 2) ' ').isDigit
  k?.map fun k => r.take (k + 3)

/-- re.findall of the decimal-token pattern (non-overlapping, left to right;
fuel as above). -/
def findAllDecimalsF : Nat → List Char → List (List Char)
  | 0, _ => []
  | _ + 1, [] => []
  | f + 1, c :: t =>
    match decTokenAt (c :: t) with
    | some m => m :: findAllDecimalsF f (t.drop (m.length - 1))
    | none => findAllDecimalsF f t

def findAllDecimals (cs : List Char) : List (List Char) := findAllDecimalsF cs.length cs

def pyFindAllDecimals (s : String) : List String :=
  (findAllDecimals s.data).map fun cs => ⟨cs⟩

/-- `(\d+)\s+NOS` at a position: maximal digit run, at least one whitespace,
then the literal; deterministic since no backtracking can help. -/
def qtyNOSAt (cs : List Char) : Option (List Char) :=
  let ds := cs.takeWhile Char.isDigit
  if ds.isEmpty then none
  else
    let rest := cs.drop ds.length
    let ws := rest.takeWhile isWs
    if ws.isEmpty then none
    else if ("NOS".data).isPrefixOf (rest.drop ws.length) then some ds
    else none

/-- re.search of `(\d+)\s+NOS`; the captured group is the digit run. -/
def searchQtyNOS (s : String) : Option String :=
  (scanFirst qtyNOSAt s.data).map fun cs => ⟨cs⟩

/-- re.search of `(\d` x6-8 `)$`: the suffix of the string must be digits;
with greedy backtracking and the leftmost rule the group is the last
`min 8 L` digits of a trailing digit run of length `L ≥ 6`. -/
def searchHsnEnd (s : String) : Option String :=
  let rev := s.data.reverse
  let l := (rev.takeWhile Char.isDigit).length
  if 6 ≤ l then some ⟨((rev.take (min 8 l)).reverse)⟩ else none

/-- `\b\d` x6-8 `\b` at a position: the previous character must not be a word
character, the maximal digit run here must have length 6 to 8, and the
character after the run must not be a word character. -/
def hsnWordAt (prev : Option Char) (cs : List Char) : Option (List Char) :=
  if (prev.map isWordChar).getD false then none
  else
    let ds := cs.takeWhile Char.isDigit
    if 6 ≤ ds.length && ds.length ≤ 8 then
      match cs.drop ds.length with
      | [] => some ds
      | c :: _ => if isWordChar c then none else some ds
    else none

/-- re.search of `\b\d` x6-8 `\b` as a Boolean (the code only tests it). -/
def hasHsnWord (s : String) : Bool :=
  go none s.data
where
  go (prev : Option Char) : List Char → Bool
    | [] => false
    | c :: t => (hsnWordAt prev (c :: t)).isSome || go (some c) t

/-- Generic re.sub with empty replacement for patterns that need the previous
character (lookbehind/word boundary); `p` returns the matched length (fuel as
above). -/
def subPrevF (p : Option Char → List Char → Option Nat) :
    Nat → Option Char → List Char → List Char
  | 0, _, cs => cs
  | _ + 1, _, [] => []
  | f + 1, prev, c :: t =>
    match p prev (c :: t) with
    | some k =>
      subPrevF p f (some ((c :: t).getD (k - 1) c)) (t.drop (k - 1))
    | none => c :: subPrevF p f (some c) t

def subPrev (p : Option Char → List Char → Option Nat) (prev : Option Char)
    (cs : List Char) : List Char := subPrevF p cs.length prev cs

/-- re.sub removing every `\b\d` x6-8 `\b` run. -/
def subHsnWord (s : String) : String :=
  ⟨subPrev (fun prev cs => (hsnWordAt prev cs).map (·.length)) none s.data⟩

/-- A specific word `w` with `\b` boundaries at a position (used for the
f-string patterns `\b{hsn}\b` and `\b{qty_value}\b`, where `w` is digits). -/
def wordBoundAt (w : List Char) (prev : Option Char) (cs : List Char) : Option Nat :=
  if (prev.map isWordChar).getD false then none
  else if w.isPrefixOf cs then
    match cs.drop w.length with
    | [] => some w.length
    | c :: _ => if isWordChar c then none else some w.length
  else none

/-- re.sub removing every `\b`-delimited occurrence of the word `w`. -/
def subWord (w : String) (s : String) : String :=
  ⟨subPrev (wordBoundAt w.data) none s.data⟩

/-- Case-insensitive `\bNOS\b` occurrence at a position. -/
def nosWordAt (prev : Option Char) (cs : List Char) : Option Nat :=
  if (prev.map isWordChar).getD false then none
  else if ciPrefix ("nos".data) cs && cs.length ≥ 3 then
    match cs.drop 3 with
    | [] => some 3
    | c :: _ => if isWordChar c then none else some 3
  else none

/-- re.sub of `\bNOS\b` (IGNORECASE) with the empty string. -/
def subNOSWord (s : String) : String :=
  ⟨subPrev nosWordAt none s.data⟩

/-- Case-insensitive `\bTotal\b` occurrence at a position. -/
def totalWordAt (prev : Option Char) (cs : List Char) : Option Nat :=
  if (prev.map isWordChar).getD false then none
  else if ciPrefix ("total".data) cs && cs.length ≥ 5 then
    match cs.drop 5 with
    | [] => some 5
    | c :: _ => if isWordChar c then none else some 5
  else none

/-- re.sub of `\bTotal\b` (IGNORECASE) with the empty string. -/
def subTotalWord (s : String) : String :=
  ⟨subPrev totalWordAt none s.data⟩

/-- The literal decimal value `v` guarded by the lookarounds that claude's
cleaning uses: not preceded and not followed by a `[0-9.,]` character. -/
def decValueAt (v : List Char) (prev : Option Char) (cs : List Char) : Option Nat :=
  if (prev.map isDecChar).getD false then none
  else if v.isPrefixOf cs then
    match cs.drop v.length with
    | [] => some v.length
    | c :: _ => if isDecChar c then none else some v.length
  else none

/-- re.sub removing a captured decimal value with its lookaround guards. -/
def subDecValue (v : String) (s : String) : String :=
  ⟨subPrev (decValueAt v.data) none s.data⟩

/-- Character class `[-0-9.% ]` of the tax-fragment patterns. -/
def isTaxFragChar (c : Char) : Bool :=
  c = '-' || c.isDigit || c = '.' || c = '%' || c = ' '

/-- `Output\s+NAME\s*[-0-9.% ]+` (IGNORECASE) at a position, for NAME one of
IGST/CGST/SGST: after the literals, `\s*` is greedy and gives back whitespace
until the class run is non-empty. Returns the matched length. -/
def taxFragAt (name : List Char) (cs : List Char) : Option Nat :=
  if ciPrefix ("output".data) cs then
    let rest := cs.drop 6
    let ws := rest.takeWhile isWs
    if ws.isEmpty then none
    else
      let rest2 := rest.drop ws.length
      if ciPrefix name rest2 then
        let rest3 := rest2.drop name.length
        let w2 := (rest3.takeWhile isWs).length
        match tryK rest3 w2 with
        | some (k, m) => some (6 + ws.length + name.length + k + m)
        | none => none
      else none
  else none
where
  /-- Try whitespace-skip `k` from the greedy maximum downwards; accept the
  first `k` whose following class run is non-empty. -/
  tryK (rest3 : List Char) : Nat → Option (Nat × Nat)
    | 0 =>
      let run := rest3.takeWhile isTaxFragChar
      if run.length ≥ 1 then some (0, run.length) else none
    | k + 1 =>
      let run := (rest3.drop (k + 1)).takeWhile isTaxFragChar
      if run.length ≥ 1 then some (k + 1, run.length) else tryK rest3 k

/-- re.sub of one `Output ...` tax-fragment pattern (no lookbehind needed;
fuel as above). -/
def subTaxFrag (name : String) (s : String) : String :=
  ⟨go s.data.length s.data⟩
where
  go : Nat → List Char → List Char
    | 0, cs => cs
    | _ + 1, [] => []
    | f + 1, c :: t =>
      match taxFragAt name.data (c :: t) with
      | some k => go f (t.drop (k - 1))
      | none => c :: go f t

end PdfInv

namespace PdfInv

/-- `^(\d+)\s+` at the start of a line: greedy digit run then a greedy
whitespace run (both must be non-empty).  Returns the digit group and the
length of the whole match (group 0). -/
def leadingIntMatch (s : String) : Option (String × Nat) :=
  let ds := s.data.takeWhile Char.isDigit
  if ds.isEmpty then none
  else
    let ws := (s.data.drop ds.length).takeWhile isWs
    if ws.isEmpty then none
    else some (⟨ds⟩, ds.length + ws.length)

/-- `Sl\s+Description`: the literal, at least one whitespace, the literal. -/
def matchSlDescAt (cs : List Char) : Option Unit :=
  if ("Sl".data).isPrefixOf cs then
    let rest := cs.drop 2
    let ws := rest.takeWhile isWs
    if ws.isEmpty then none
    else if ("Description".data).isPrefixOf (rest.drop ws.length) then some ()
    else none
  else none

/-- `No\.\s+Goods and Services`: literal, whitespace, literal. -/
def matchNoGoodsAt (cs : List Char) : Option Unit :=
  if ("No.".data).isPrefixOf cs then
    let rest := cs.drop 3
    let ws := rest.takeWhile isWs
    if ws.isEmpty then none
    else if ("Goods and Services".data).isPrefixOf (rest.drop ws.length) then some ()
    else none
  else none

/-- The table-header test of claude_InvDataEx.py (line 423): a line matching
`Sl\s+Description` that also contains `Quantity` or `HSN/SAC`, or a line
matching `No\.\s+Goods and Services`. -/
def isTableHeaderLine (l : String) : Bool :=
  ((scanFirst matchSlDescAt l.data).isSome &&
    (pyContains l "Quantity" || pyContains l "HSN/SAC")) ||
  (scanFirst matchNoGoodsAt l.data).isSome

/-- The end-of-table markers of claude_InvDataEx.py (lines 432-435, 486-490). -/
def isEndMarker (l : String) : Bool :=
  pyContains l "Amount Chargeable" || pyContains l "Total" ||
  pyContains l "continued to page" || pyContains l "SUBJECT TO"

/-- re.search of `(Output\s+)?(CGST|SGST|IGST)` with IGNORECASE (line 527):
as a Boolean this is exactly case-insensitive containment of one of the
three tax names, since the `Output` prefix is optional. -/
def isTaxLine (l : String) : Bool :=
  pyContainsCI l "CGST" || pyContainsCI l "SGST" || pyContainsCI l "IGST"

/-- Full match of `[0-9,.]+\.\d` x2: every character is in the class, the
length is at least 4, the third-from-last character is `.` and the last two
are digits. -/
def fullmatchDecimal (s : String) : Bool :=
  let cs := s.data
  cs.all isDecChar && decide (4 ≤ cs.length) &&
  (cs.getD (cs.length - 3) ' ') = '.' &&
  (cs.getD (cs.length - 2) ' ').isDigit && (cs.getD (cs.length - 1) ' ').isDigit

/-- The likely-total-line test of claude_InvDataEx.py (lines 530-535):
strip `\bTotal\b` labels (IGNORECASE), strip, then strip one leading and one
trailing run of non-digit characters, strip again, and test whether the
remainder fully matches a two-fraction-digit decimal token. -/
def isLikelyTotalLine (l : String) : Bool :=
  let t1 := pyStrip (subTotalWord l)
  let t2 := pyStrip ⟨((t1.data.dropWhile (fun c => !c.isDigit)).reverse.dropWhile
                      (fun c => !c.isDigit)).reverse⟩
  fullmatchDecimal t2

/-- The likely-new-item test applied to a look-ahead line (lines 498-513):
the line starts with `^\d+\s+` and carries an HSN-shaped token, a
quantity+unit pair, or at least two decimal tokens. -/
def isLikelyNewItem (l : String) : Bool :=
  (leadingIntMatch l).isSome &&
  (hasHsnWord l || (scanFirst qtyNOSAt l.data).isSome ||
    decide (2 ≤ (findAllDecimals l.data).length))

end PdfInv

namespace PdfInv

/-- re.sub of `\s+` with a single space (whitespace-run collapse). -/
def collapseWsAux : Bool → List Char → List Char
  | _, [] => []
  | prevWs, c :: t =>
    if isWs c then
      if prevWs then collapseWsAux true t else ' ' :: collapseWsAux true t
    else c :: collapseWsAux false t

def collapseWs (s : String) : String := ⟨collapseWsAux false s.data⟩

namespace Claude

/-- One extracted line item of claude_InvDataEx.py's `extract_items_from_pdf`
(the dictionary built at lines 629-640). -/
structure RawItem where
  file_name : String
  invoice_number : String
  item_no : String
  item : String
  description : String
  qty_value : String
  qty_unit : String
  rate : String
  amount : String
  hsn_sac : String
deriving DecidableEq, Repr

/-- The look-ahead loop of lines 481-548: consume continuation lines after a
candidate item line.  Returns the appended (stripped) description lines and
the number of lines consumed; the stopping line is left unconsumed, matching
`idx = next_idx` in the source. -/
def consumeConts : List String → (List String × Nat)
  | [] => ([], 0)
  | l :: rest =>
    let s := pyStrip l
    if isEndMarker s then ([], 0)
    else if s = "" then
      let (d, k) := consumeConts rest
      (d, k + 1)
    else if isLikelyNewItem s then ([], 0)
    else if isTaxLine s then ([], 0)
    else if isLikelyTotalLine s then ([], 0)
    else
      let (d, k) := consumeConts rest
      (s :: d, k + 1)

/-- The description-cleaning sequence of lines 563-589 (also applied to the
first description line at lines 614-626): remove the captured HSN with word
boundaries, any other 6-8 digit word, the unit token, every captured decimal
value with lookaround guards, the quantity word, the output-tax fragments,
then collapse whitespace and strip. -/
def cleanDescription (hsn qty_value qty_unit : String) (decs : List String)
    (d : String) : String :=
  let d1 := if hsn ≠ "" then subWord hsn d else d
  let d2 := subHsnWord d1
  let d3 := if qty_unit ≠ "" then subNOSWord d2 else d2
  let d4 := decs.foldl (fun acc v => subDecValue v acc) d3
  let d5 := if qty_value ≠ "" then subWord qty_value d4 else d4
  let d6 := subTaxFrag "igst" d5
  let d7 := subTaxFrag "cgst" d6
  let d8 := subTaxFrag "sgst" d7
  pyStrip (collapseWs d8)

/-- Build one item record from the (stripped) main line, the matched item
number with its group-0 length, and the consumed continuation lines
(lines 469-641 of the source). -/
def buildItem (file_name invoice_number : String) (line : String)
    (item_no : String) (g0 : Nat) (conts : List String) : RawItem :=
  let hsn := (searchHsnEnd line).getD ""
  let qtyMatch := searchQtyNOS line
  let qty_value := qtyMatch.getD ""
  let qty_unit := if qtyMatch.isSome then "NOS" else ""
  let decs := pyFindAllDecimals line
  let initial_description := pyStrip ⟨line.data.drop g0⟩
  let description_lines := initial_description :: conts
  let full_description :=
    cleanDescription hsn qty_value qty_unit decs (pyJoin " " description_lines)
  let rateAmount :=
    if qty_value = "" then
      if 1 ≤ decs.length then ("", decs.getLastD "") else ("", "")
    else
      if 2 ≤ decs.length then (decs.getD 0 "", decs.getD 1 "")
      else if decs.length = 1 then ("", decs.getD 0 "")
      else ("", "")
  let first_line_item :=
    cleanDescription hsn qty_value qty_unit decs (pyStrip initial_description)
  { file_name := file_name
    invoice_number := invoice_number
    item_no := item_no
    item := first_line_item
    description := full_description
    qty_value := qty_value
    qty_unit := qty_unit
    rate := rateAmount.1
    amount := rateAmount.2
    hsn_sac := hsn }

/-- The per-page item loop of lines 444-644, over the slice of lines between
the table start and the table end.  `processed` is the document-global set of
already-emitted item numbers.  The fuel (the slice length at the top call)
only forces structural termination and is never exhausted, since every step
consumes at least one line. -/
def processItemLinesF (fn inv : String) :
    Nat → List String → List String → List RawItem → (List String × List RawItem)
  | 0, _, processed, items => (processed, items)
  | _ + 1, [], processed, items => (processed, items)
  | f + 1, l :: rest, processed, items =>
    let s := pyStrip l
    if s = "" || pyStartsWith s "Sl" || pyStartsWith s "No." then
      processItemLinesF fn inv f rest processed items
    else
      match leadingIntMatch s with
      | none => processItemLinesF fn inv f rest processed items
      | some (item_no, g0) =>
        if item_no ∈ processed then
          processItemLinesF fn inv f rest processed items
        else
          let ck := consumeConts rest
          processItemLinesF fn inv f (rest.drop ck.2) (processed ++ [item_no])
            (items ++ [buildItem fn inv s item_no g0 ck.1])

def processItemLines (fn inv : String) (ls : List String) (processed : List String)
    (items : List RawItem) : List String × List RawItem :=
  processItemLinesF fn inv ls.length ls processed items

/-- Lines 418-441: index right after the first table-header line, then the
slice of lines up to (excluding) the first end-marker line after it. -/
def tableSlice (lines : List String) : List String :=
  match lines.findIdx? isTableHeaderLine with
  | none => []
  | some idx =>
    let rest := lines.drop (idx + 1)
    rest.take ((rest.findIdx? isEndMarker).getD rest.length)

/-- Lines 403-408: the invoice number is the first SC-pattern match found on
the first page's lines (empty if none). -/
def invoiceNumberOfLines (lines : List String) : String :=
  (lines.findSome? searchSC).getD ""

/-- One page of the fold of `extract_items_from_pdf`: run the per-page loop
on the page's table slice, carrying the state across pages. -/
def pageStep (fn inv : String) (st : List String × List RawItem)
    (page : List String) : List String × List RawItem :=
  processItemLines fn inv (tableSlice page) st.1 st.2

/-- `extract_items_from_pdf` before the final sort: fold the per-page loop
over all pages, carrying the processed-item-number set and the item list
across page boundaries (lines 389-644). -/
def extractItemsPre (file_name : String) (pages : List (List String)) : List RawItem :=
  let inv := invoiceNumberOfLines (pages.headD [])
  (pages.foldl (pageStep file_name inv) ([], [])).2

/-- `extract_items_from_pdf` (lines 389-656): the collected items, sorted by
`int(item_no)` ascending (line 647).  Python's list sort is stable;
`List.insertionSort` with the non-strict key order is the same stable sort. -/
def extract_items (file_name : String) (pages : List (List String)) : List RawItem :=
  (extractItemsPre file_name pages).insertionSort fun a b =>
    pyInt a.item_no ≤ pyInt b.item_no

/-- The warning-level log output of `extract_items_from_pdf`: the function
contains no `logging.warning` call anywhere (its only logging is debug
tracing), so the emitted warning list is constantly empty; in particular no
item-ordering anomaly is ever reported. -/
def extractItemsWarnings (_file_name : String) (_pages : List (List String)) :
    List String := []

end Claude

end PdfInv

namespace PdfInv

/-- Lazy capture `(.+?)` followed by `(?:$|stop...)`: the shortest non-empty
prefix of `rem` after which the string ends or one of the stop literals
follows (compared case-insensitively when `caseI` is set). -/
def lazyStopCapture (stops : List (List Char)) (caseI : Bool) (rem : List Char) :
    Option (List Char) :=
  ((List.range' 1 rem.length).find? fun l =>
    (rem.drop l).isEmpty ||
    stops.any fun st =>
      if caseI then ciPrefix st (rem.drop l) else st.isPrefixOf (rem.drop l)).map
    fun l => rem.take l

/-- `\s*` then a lazy capture: greedy whitespace first, giving back one
whitespace character when nothing is left to capture. -/
def wsThenLazy (stops : List (List Char)) (caseI : Bool) (cs : List Char) :
    Option (List Char) :=
  let w := (cs.takeWhile isWs).length
  match lazyStopCapture stops caseI (cs.drop w) with
  | some cap => some cap
  | none => if 1 ≤ w then lazyStopCapture stops caseI (cs.drop (w - 1)) else none

/-- `Place of Supply\s*:\s*(.+?)(?:$|State Code)` at a position (line 233). -/
def placeOfSupplyAt (cs : List Char) : Option (List Char) :=
  if ("Place of Supply".data).isPrefixOf cs then
    let rest := cs.drop 15
    let w := (rest.takeWhile isWs).length
    match rest.drop w with
    | ':' :: rest2 => wsThenLazy [("State Code".data)] false rest2
    | _ => none
  else none

def searchPlaceOfSupply (s : String) : Option String :=
  (scanFirst placeOfSupplyAt s.data).map fun cs => ⟨cs⟩

/-- `Destination\s*[:]\s*(.+?)(?:$|Motor Vehicle|Dispatched)` IGNORECASE at a
position (lines 149-150). -/
def destM1At (cs : List Char) : Option (List Char) :=
  if ciPrefix ("destination".data) cs then
    let rest := cs.drop 11
    let w := (rest.takeWhile isWs).length
    match rest.drop w with
    | ':' :: rest2 => wsThenLazy [("motor vehicle".data), ("dispatched".data)] true rest2
    | _ => none
  else none

def searchDestM1 (s : String) : Option String :=
  (scanFirst destM1At s.data).map fun cs => ⟨cs⟩

/-- Legacy `Place of Supply\s*:\s*(.+)` at a position (InvDataEx.py line 60):
greedy capture to the end of the line, giving back one whitespace character
when the line ends right after the colon and its whitespace. -/
def placeOfSupplyGreedyAt (cs : List Char) : Option (List Char) :=
  if ("Place of Supply".data).isPrefixOf cs then
    let rest := cs.drop 15
    let w := (rest.takeWhile isWs).length
    match rest.drop w with
    | ':' :: rest2 =>
      let w2 := (rest2.takeWhile isWs).length
      if (rest2.drop w2).isEmpty then
        if 1 ≤ w2 then some (rest2.drop (w2 - 1)) else none
      else some (rest2.drop w2)
    | _ => none
  else none

def searchPlaceOfSupplyGreedy (s : String) : Option String :=
  (scanFirst placeOfSupplyGreedyAt s.data).map fun cs => ⟨cs⟩

/-- `\bDestination\b` IGNORECASE at a position (line 160). -/
def destWordAt (prev : Option Char) (cs : List Char) : Option Nat :=
  if (prev.map isWordChar).getD false then none
  else if ciPrefix ("destination".data) cs then
    match cs.drop 11 with
    | [] => some 11
    | c :: _ => if isWordChar c then none else some 11
  else none

def hasDestWord (s : String) : Bool :=
  go none s.data
where
  go (prev : Option Char) : List Char → Bool
    | [] => false
    | c :: t => (destWordAt prev (c :: t)).isSome || go (some c) t

/-- re.split on `\bDestination\b[\s:]*` IGNORECASE (line 162): the word with
boundaries followed by a greedy run of whitespace and colons. -/
def splitDestParts (s : String) : List String :=
  (go s.data.length none s.data).map fun cs => ⟨cs⟩
where
  matchAt (prev : Option Char) (cs : List Char) : Option Nat :=
    match destWordAt prev cs with
    | some _ =>
      some (11 + ((cs.drop 11).takeWhile fun c => isWs c || c = ':').length)
    | none => none
  go : Nat → Option Char → List Char → List (List Char)
    | 0, _, _ => [[]]
    | _ + 1, _, [] => [[]]
    | f + 1, prev, c :: t =>
      match matchAt prev (c :: t) with
      | some k =>
        [] :: go f (some ((c :: t).getD (k - 1) c)) (t.drop (k - 1))
      | none =>
        match go f (some c) t with
        | [] => [[c]]
        | h :: r => (c :: h) :: r

/-- `Destination\s*[:-]\s*([A-Za-z\s]+)(?:\s|$)` IGNORECASE at a position
(line 223): the capture class contains whitespace, so the greedy capture must
end at the line end or just before a whitespace character inside the run. -/
def destM4At (cs : List Char) : Option (List Char) :=
  if ciPrefix ("destination".data) cs then
    let rest := cs.drop 11
    let w := (rest.takeWhile isWs).length
    match rest.drop w with
    | c :: rest2 =>
      if c = ':' || c = '-' then
        let w2 := (rest2.takeWhile isWs).length
        tryK rest2 w2
      else none
    | [] => none
  else none
where
  isCap (c : Char) : Bool := c.isAlpha || isWs c
  /-- Greedy `\s*` skip from `k` downwards; for each skip find the largest
  usable capture length. -/
  tryK (rest2 : List Char) : Nat → Option (List Char)
    | 0 => tryCapture (rest2.takeWhile isCap) ((rest2.drop ((rest2.takeWhile isCap).length)).isEmpty)
    | k + 1 =>
      let rem := rest2.drop (k + 1)
      let run := rem.takeWhile isCap
      match tryCapture run ((rem.drop run.length).isEmpty) with
      | some cap => some cap
      | none => tryK rest2 k
  /-- The largest `g ≥ 1`: the whole run if the string ends there, otherwise
  the longest prefix whose following character inside the run is whitespace. -/
  tryCapture (run : List Char) (atEnd : Bool) : Option (List Char) :=
    if run.isEmpty then none
    else if atEnd then some run
    else
      ((List.range run.length).reverse.find? fun g =>
        decide (1 ≤ g) && isWs (run.getD g ' ')).map fun g => run.take g

def searchDestM4 (s : String) : Option String :=
  (scanFirst destM4At s.data).map fun cs => ⟨cs⟩

end PdfInv

namespace PdfInv

/-- Separator class `[:\s.\-]` of the labelled phone pattern. -/
def isPhoneSep (c : Char) : Bool := c = ':' || isWs c || c = '.' || c = '-'

/-- Body class `[\d\s\-]` of the labelled phone pattern. -/
def isPhoneBody (c : Char) : Bool := c.isDigit || isWs c || c = '-'

/-- The labelled phone pattern
`(?:Phone|Ph|Tel|T|Contact|Mobile|Mob)[:\s.\-]+(\+?\d[\d\s\-]` x8+ `)`
(IGNORECASE) at a position: try the label alternatives in order; after the
label a non-empty separator run, an optional `+`, one digit, then a greedy
body run of length at least 8.  Returns the group and the match length. -/
def phone1At (cs : List Char) : Option (List Char × Nat) :=
  tryLabels [("phone".data), ("ph".data), ("tel".data), ("t".data),
             ("contact".data), ("mobile".data), ("mob".data)] cs
where
  afterLabel (labLen : Nat) (cs : List Char) : Option (List Char × Nat) :=
    let rest := cs.drop labLen
    let seps := (rest.takeWhile isPhoneSep).length
    if seps = 0 then none
    else
      let afterSeps := rest.drop seps
      let withPlus := if afterSeps.headD ' ' = '+' then 1 else 0
      match afterSeps.drop withPlus with
      | d :: body =>
        if d.isDigit then
          let run := body.takeWhile isPhoneBody
          if 8 ≤ run.length then
            let g := (afterSeps.take withPlus) ++ d :: run
            some (g, labLen + seps + g.length)
          else none
        else none
      | [] => none
  tryLabels : List (List Char) → List Char → Option (List Char × Nat)
    | [], _ => none
    | lab :: labs, cs =>
      if ciPrefix lab cs then
        match afterLabel lab.length cs with
        | some r => some r
        | none => tryLabels labs cs
      else tryLabels labs cs

/-- `(?<!\S)(\+?\d` x10-12 `)(?!\S)` at a position: preceded by start or
whitespace, an optional `+` and a digit run whose whole length is 10 to 12,
followed by whitespace or the end. -/
def phone2At (prev : Option Char) (cs : List Char) : Option (List Char × Nat) :=
  if ((prev.map fun c => !isWs c).getD false) then none
  else
    let withPlus := if cs.headD ' ' = '+' then 1 else 0
    let body := cs.drop withPlus
    let run := body.takeWhile Char.isDigit
    if 10 ≤ run.length && run.length ≤ 12 then
      match body.drop run.length with
      | [] => some (cs.take (withPlus + run.length), withPlus + run.length)
      | c :: _ =>
        if isWs c then some (cs.take (withPlus + run.length), withPlus + run.length)
        else none
    else none

/-- `(?<!\S)(\d` x3-5 `[\s\-]\d` x6-8 `)(?!\S)` at a position. -/
def phone3At (prev : Option Char) (cs : List Char) : Option (List Char × Nat) :=
  if ((prev.map fun c => !isWs c).getD false) then none
  else
    let r1 := cs.takeWhile Char.isDigit
    if 3 ≤ r1.length && r1.length ≤ 5 then
      match cs.drop r1.length with
      | sep :: rest =>
        if isWs sep || sep = '-' then
          let r2 := rest.takeWhile Char.isDigit
          if 6 ≤ r2.length && r2.length ≤ 8 then
            match rest.drop r2.length with
            | [] => some (r1 ++ sep :: r2, r1.length + 1 + r2.length)
            | c :: _ =>
              if isWs c then some (r1 ++ sep :: r2, r1.length + 1 + r2.length)
              else none
          else none
        else none
      | [] => none
    else none

/-- Scan for the first match of a previous-character-aware pattern. -/
def scanFirstPrev (p : Option Char → List Char → Option α) (s : String) : Option α :=
  go none s.data
where
  go (prev : Option Char) : List Char → Option α
    | [] => p prev []
    | c :: t =>
      match p prev (c :: t) with
      | some a => some a
      | none => go (some c) t

/-- re.sub with empty replacement for a previous-character-aware pattern that
reports its match length. -/
def subPrevLen (p : Option Char → List Char → Option (List Char × Nat)) (s : String) :
    String :=
  ⟨subPrev (fun prev cs => (p prev cs).map (·.2)) none s.data⟩

/-- The prioritized phone patterns of lines 274-286 applied to a party's
concatenated text: the first pattern with a match wins; the result is the
stripped captured group and the address text with that pattern substituted
away (re.sub on the address string). -/
def applyPhonePatterns (fullText address : String) : String × String :=
  match scanFirst phone1At fullText.data with
  | some (g, _) => (pyStrip ⟨g⟩, ⟨subPrev (fun _ cs => (phone1At cs).map (·.2)) none address.data⟩)
  | none =>
    match scanFirstPrev phone2At fullText with
    | some (g, _) => (pyStrip ⟨g⟩, subPrevLen phone2At address)
    | none =>
      match scanFirstPrev phone3At fullText with
      | some (g, _) => (pyStrip ⟨g⟩, subPrevLen phone3At address)
      | none => ("", address)

/-- Local-part class `[a-zA-Z0-9._%+\-]` of the email pattern. -/
def isEmailLocal (c : Char) : Bool :=
  c.isAlphanum || c = '.' || c = '_' || c = '%' || c = '+' || c = '-'

/-- Domain class `[a-zA-Z0-9.\-]` of the email pattern. -/
def isEmailDomain (c : Char) : Bool := c.isAlphanum || c = '.' || c = '-'

/-- `[a-zA-Z0-9._%+\-]+@[a-zA-Z0-9.\-]+\.[a-zA-Z]` x2+ at a position: local
run, `@`, then inside the maximal domain run the largest dot split followed by
at least two letters (greedy backtracking). -/
def emailAt (cs : List Char) : Option (List Char) :=
  let lcl := cs.takeWhile isEmailLocal
  if lcl.isEmpty then none
  else
    match cs.drop lcl.length with
    | '@' :: rest =>
      let dom := rest.takeWhile isEmailDomain
      ((List.range dom.length).reverse.find? fun k =>
        (dom.getD k ' ') = '.' && 2 ≤ ((dom.drop (k + 1)).takeWhile Char.isAlpha).length).map
        fun k =>
          lcl ++ '@' :: (dom.take k) ++ '.' ::
            ((dom.drop (k + 1)).takeWhile Char.isAlpha)
    | _ => none

def searchEmail (s : String) : Option String :=
  (scanFirst emailAt s.data).map fun cs => ⟨cs⟩

/-- `GSTIN/UIN\s*:\s*([A-Z0-9]+)` at a position. -/
def gstinAt (cs : List Char) : Option (List Char) :=
  if ("GSTIN/UIN".data).isPrefixOf cs then
    let rest := cs.drop 9
    let w := (rest.takeWhile isWs).length
    match rest.drop w with
    | ':' :: rest2 =>
      let w2 := (rest2.takeWhile isWs).length
      let run := (rest2.drop w2).takeWhile fun c => ('A' ≤ c && c ≤ 'Z') || c.isDigit
      if run.isEmpty then none else some run
    | _ => none
  else none

def searchGstin (s : String) : Option String :=
  (scanFirst gstinAt s.data).map fun cs => ⟨cs⟩

/-- `State Name\s*:\s*([^,]+)` at a position: the `[^,]` class contains
whitespace, so when nothing else follows the greedy `\s*` gives back one
whitespace character for the capture. -/
def stateNameAt (cs : List Char) : Option (List Char) :=
  if ("State Name".data).isPrefixOf cs then
    let rest := cs.drop 10
    let w := (rest.takeWhile isWs).length
    match rest.drop w with
    | ':' :: rest2 =>
      let w2 := (rest2.takeWhile isWs).length
      let rem := rest2.drop w2
      let run := rem.takeWhile (· ≠ ',')
      if !run.isEmpty then some run
      else if 1 ≤ w2 then some ((rest2.drop (w2 - 1)).takeWhile (· ≠ ',')) else none
    | _ => none
  else none

def searchStateName (s : String) : Option String :=
  (scanFirst stateNameAt s.data).map fun cs => ⟨cs⟩

end PdfInv

namespace PdfInv

namespace Claude

/-- The header dictionary of `extract_header_from_pdf` (lines 60-78). -/
structure Header where
  file_name : String := ""
  invoice_number : String := ""
  invoice_date : String := ""
  consignee_name : String := ""
  consignee_address : String := ""
  consignee_gstin : String := ""
  consignee_state : String := ""
  consignee_contact : String := ""
  consignee_email : String := ""
  buyer_name : String := ""
  buyer_address : String := ""
  buyer_gstin : String := ""
  buyer_state : String := ""
  buyer_contact : String := ""
  buyer_email : String := ""
  place_of_supply : String := ""
  destination : String := ""
deriving DecidableEq, Repr

/-- Lines 86-94: index of the first line carrying the invoice-number pattern
and the captured number (`'SC' in line` is implied by a pattern match). -/
def invoiceAnchor (lines : List String) : Option (Nat × String) :=
  (List.range lines.length).findSome? fun idx =>
    (searchSC (lines.getD idx "")).map fun num => (idx, num)

/-- Lines 96-105: first date-pattern match on the lines from three before to
three after the invoice-number line, skipping lines containing `Ack Date`. -/
def dateNearInvoice (lines : List String) (idx : Nat) : Option String :=
  let lo := idx - 3
  let hi := min lines.length (idx + 4)
  (List.range' lo (hi - lo)).findSome? fun i =>
    let l := lines.getD i ""
    match searchDate l with
    | some d => if pyContains l "Ack Date" then none else some d
    | none => none

/-- Lines 109-116: first match of `Dated\s+` date. -/
def dateViaDated (lines : List String) : Option String :=
  lines.findSome? searchDatedDate

/-- Lines 119-128: first date-pattern match on a line that neither starts
with nor contains `Ack Date`. -/
def dateGeneral (lines : List String) : Option String :=
  lines.findSome? fun l =>
    match searchDate l with
    | some d =>
      if pyStartsWith l "Ack Date" then none
      else if pyContains l "Ack Date" then none
      else some d
    | none => none

/-- Lines 131-142: near a bill-of-lading label, scan forward up to 5 lines
for a date token; if a label line's window has no date, keep scanning. -/
def dateNearLading (lines : List String) : Option String :=
  (List.range lines.length).findSome? fun idx =>
    let l := lines.getD idx ""
    if pyContains l "Bill of Lading" || pyContains l "LR-RR No" then
      (List.range' idx (min (idx + 5) lines.length - idx)).findSome? fun i =>
        searchDate (lines.getD i "")
    else none

/-- Lines 96-142: the date-recovery cascade. -/
def invoiceDateOf (lines : List String) (anchorIdx : Option Nat) : String :=
  let d1 := match anchorIdx with
    | some idx => dateNearInvoice lines idx
    | none => none
  match d1 with
  | some d => d
  | none =>
    match dateViaDated lines with
    | some d => d
    | none =>
      match dateGeneral lines with
      | some d => d
      | none => (dateNearLading lines).getD ""

/-- Lines 166-169 and 181-184: trim the destination at layout stop points. -/
def trimStops (d : String) : String :=
  ["Motor Vehicle", "Dispatched through", "Terms of Delivery"].foldl
    (fun acc sp =>
      if pyContains acc sp then pyStrip ((pySplit acc sp).headD "") else acc)
    d

/-- Method 2 of the destination search (lines 158-188). -/
def destMethod2 (lines : List String) : Option String :=
  (List.range lines.length).findSome? fun idx =>
    let line := lines.getD idx ""
    if hasDestWord line then
      let parts := splitDestParts line
      if 1 < parts.length && pyStrip (parts.getD 1 "") ≠ "" then
        some (trimStops (pyStrip (parts.getD 1 "")))
      else if idx + 1 < lines.length &&
          !(pyContains (pyLower (lines.getD (idx + 1) "")) "motor vehicle" ||
            pyContains (pyLower (lines.getD (idx + 1) "")) "dispatched") then
        let next_line := pyStrip (lines.getD (idx + 1) "")
        if !(pyStartsWith next_line "Motor" || pyStartsWith next_line "Dispatched" ||
             pyStartsWith next_line "Terms") then
          some (trimStops next_line)
        else none
      else none
    else none

/-- Method 3 of the destination search (lines 191-218): the loop has no
break, so the last qualifying `Destination` line wins. -/
def destMethod3 (lines : List String) : Option String :=
  (List.range lines.length).foldl
    (fun acc idx =>
      let line := lines.getD idx ""
      if pyContains line "Destination" then
        let motor? := (List.range' idx (min lines.length (idx + 5) - idx)).find? fun i =>
          pyContains (lines.getD i "") "Motor Vehicle"
        match motor? with
        | some mi =>
          if mi = idx then
            let parts := pyStrip ((pySplit ((pySplit line "Destination").getD 1 "")
              "Motor Vehicle").headD "")
            if parts ≠ "" then some (pyStrip (pyStripChars parts [':'])) else acc
          else
            let dest_text := pyStrip (pyStripChars
              ((pySplit line "Destination").getD 1 "") [':'])
            if dest_text ≠ "" then some dest_text else acc
        | none => acc
      else acc)
    none

/-- Method 4 of the destination search (lines 221-228). -/
def destMethod4 (lines : List String) : Option String :=
  (lines.findSome? searchDestM4).map pyStrip

/-- Lines 145-228: the four destination methods, tried in order. -/
def destinationOf (lines : List String) : String :=
  match (lines.findSome? searchDestM1).map pyStrip with
  | some d => d
  | none =>
    match destMethod2 lines with
    | some d => d
    | none =>
      match destMethod3 lines with
      | some d => d
      | none => (destMethod4 lines).getD ""

/-- Lines 230-236: the place of supply from the first labelled line (the
loop breaks on the first line containing the label whether or not the regex
then matches). -/
def placeOfSupplyOf (lines : List String) : String :=
  match lines.find? (fun l => pyContains l "Place of Supply") with
  | some l => ((searchPlaceOfSupply l).map pyStrip).getD ""
  | none => ""

/-- Lines 239-253: consignee/buyer section boundaries, one scan that stops
at the `Place of Supply` line after the buyer block. -/
structure Sections where
  cs : Option Nat := none
  ce : Option Nat := none
  bs : Option Nat := none
  be : Option Nat := none
  broke : Bool := false

def sectionsOf (lines : List String) : Sections :=
  (List.range lines.length).foldl
    (fun st idx =>
      if st.broke then st
      else
        let line := lines.getD idx ""
        if pyContains line "Consignee (Ship to)" then { st with cs := some (idx + 1) }
        else if st.cs.isSome && pyContains line "Buyer (Bill to)" then
          { st with ce := some idx, bs := some (idx + 1) }
        else if st.bs.isSome && pyContains line "Place of Supply" then
          { st with be := some idx, broke := true }
        else st)
    {}

/-- Lines 256-305 (consignee) and 308-357 (buyer): extract one party block
given its boundaries: name, address lines (stripped, cut at the first
`GSTIN/UIN` line), the phone/email removal, and the GSTIN and state captures
(last matching line wins).  Returns
(name, address, gstin, state, contact, email). -/
def partyBlock (lines : List String) (start stop : Nat) :
    String × String × String × String × String × String :=
  let name := pyStrip (lines.getD start "")
  let addrIdxs := List.range' (start + 1) (stop - (start + 1))
  let addrLines := collectAddr addrIdxs
  let fullText := String.join (addrLines.map (· ++ " "))
  let address := pyJoin ", " addrLines
  let contactAddr := applyPhonePatterns fullText address
  let contact := contactAddr.1
  let address1 := contactAddr.2
  let emailAddr :=
    match searchEmail fullText with
    | some e => (pyStrip e, pyReplace address1 e "")
    | none => ("", address1)
  let gstin := (List.range' start (stop - start)).foldl
    (fun acc idx =>
      let l := pyStrip (lines.getD idx "")
      if pyContains l "GSTIN/UIN" then
        match searchGstin l with
        | some g => g
        | none => acc
      else acc) ""
  let state := (List.range' start (stop - start)).foldl
    (fun acc idx =>
      let l := pyStrip (lines.getD idx "")
      if pyContains l "State Name" then
        match searchStateName l with
        | some g => pyStrip g
        | none => acc
      else acc) ""
  (name, emailAddr.2, gstin, state, contact, emailAddr.1)
where
  collectAddr : List Nat → List String
    | [] => []
    | idx :: rest =>
      let line := pyStrip (lines.getD idx "")
      if pyContains line "GSTIN/UIN" then []
      else line :: collectAddr rest

/-- The stray-label deny list of lines 364-365. -/
def denyTerms : List String :=
  ["Dispatch Doc No.", "Delivery Note Date", "Dispatched through", "Destination",
   "By Tempo", "West Mumbai", "Bill of Lading/LR-RR No.", "Motor Vehicle No."]

/-- `\s*,\s*,\s*` at a position (match length). -/
def commaCommaAt (cs : List Char) : Option Nat :=
  let w1 := (cs.takeWhile isWs).length
  match cs.drop w1 with
  | ',' :: r1 =>
    let w2 := (r1.takeWhile isWs).length
    match r1.drop w2 with
    | ',' :: r2 => some (w1 + 1 + w2 + 1 + (r2.takeWhile isWs).length)
    | _ => none
  | _ => none

/-- re.sub of `\s*,\s*,\s*` with `, ` (fuel as above). -/
def subCommaComma (s : String) : String :=
  ⟨go s.data.length s.data⟩
where
  go : Nat → List Char → List Char
    | 0, cs => cs
    | _ + 1, [] => []
    | f + 1, c :: t =>
      match commaCommaAt (c :: t) with
      | some k => ',' :: ' ' :: go f (t.drop (k - 1))
      | none => c :: go f t

/-- re.sub of `\s*,\s*$` with the empty string (fuel as above). -/
def subTrailingComma (s : String) : String :=
  ⟨go s.data.length s.data⟩
where
  matchAt (cs : List Char) : Option Nat :=
    let w1 := (cs.takeWhile isWs).length
    match cs.drop w1 with
    | ',' :: r1 =>
      let w2 := (r1.takeWhile isWs).length
      if (r1.drop w2).isEmpty then some (w1 + 1 + w2) else none
    | _ => none
  go : Nat → List Char → List Char
    | 0, cs => cs
    | _ + 1, [] => []
    | f + 1, c :: t =>
      match matchAt (c :: t) with
      | some k => go f (t.drop (k - 1))
      | none => c :: go f t

/-- The field post-processing of lines 359-378: deny-list removal,
whitespace collapse and strip, leading colon/whitespace strip, and for
address fields the comma cleanups. -/
def cleanField (isAddress : Bool) (v : String) : String :=
  let v1 := denyTerms.foldl (fun acc term =>
    if pyContains acc term then pyReplace acc term "" else acc) v
  let v2 := pyStrip (collapseWs v1)
  let v3 : String := ⟨v2.data.dropWhile fun c => c = ':' || isWs c⟩
  if isAddress then subTrailingComma (subCommaComma v3) else v3

/-- Lines 258 and 310 index `lines` at the scanned section starts without a
bounds guard.  The section scan overwrites consignee_start at every
`Consignee (Ship to)` line, so a second marker on the document's last line
after a consignee/buyer pair leaves consignee_start = len(lines) with
consignee_end still set, and `lines[consignee_start]` (line 258) raises
IndexError, caught only by process_pdf's outer except.  The analogous guard
for buyer_start (line 310) is modelled too, although the break at the
`Place of Supply` line keeps buyer_start in bounds whenever buyer_end is
set. -/
def headerIndexOk (lines : List String) : Bool :=
  let sec := sectionsOf lines
  (match sec.cs, sec.ce with
   | some cs, some _ => decide (cs < lines.length)
   | _, _ => true) &&
  (match sec.bs, sec.be with
   | some bs, some _ => decide (bs < lines.length)
   | _, _ => true)

/-- The header fields `extract_header_from_pdf` (lines 49-386) assembles
when no IndexError is raised. -/
def headerFields (file_name : String) (lines : List String) : Header :=
  let anchor := invoiceAnchor lines
  let invoice_number := (anchor.map (·.2)).getD ""
  let invoice_date := invoiceDateOf lines (anchor.map (·.1))
  let destination := destinationOf lines
  let place_of_supply := placeOfSupplyOf lines
  let sec := sectionsOf lines
  let consignee :=
    match sec.cs, sec.ce with
    | some cs, some ce => partyBlock lines cs ce
    | _, _ => ("", "", "", "", "", "")
  let buyer :=
    match sec.bs, sec.be with
    | some bs, some be => partyBlock lines bs be
    | _, _ => ("", "", "", "", "", "")
  { file_name := cleanField false file_name
    invoice_number := cleanField false invoice_number
    invoice_date := cleanField false invoice_date
    consignee_name := cleanField false consignee.1
    consignee_address := cleanField true consignee.2.1
    consignee_gstin := cleanField false consignee.2.2.1
    consignee_state := cleanField false consignee.2.2.2.1
    consignee_contact := cleanField false consignee.2.2.2.2.1
    consignee_email := cleanField false consignee.2.2.2.2.2
    buyer_name := cleanField false buyer.1
    buyer_address := cleanField true buyer.2.1
    buyer_gstin := cleanField false buyer.2.2.1
    buyer_state := cleanField false buyer.2.2.2.1
    buyer_contact := cleanField false buyer.2.2.2.2.1
    buyer_email := cleanField false buyer.2.2.2.2.2
    place_of_supply := cleanField false place_of_supply
    destination := cleanField false destination }

/-- `extract_header_from_pdf` (lines 49-386) over the first page's lines:
`none` models the function raising IndexError at line 258 (or 310) when a
section start index falls outside the line list. -/
def extract_header (file_name : String) (lines : List String) : Option Header :=
  if headerIndexOk lines then some (headerFields file_name lines) else none

end Claude

end PdfInv

namespace PdfInv

/-! ### Python datetime: strptime with format day-MonthAbbrev-2digitYear,
and the strftime projections the sources use. -/

def monthAbbrevsLower : List String :=
  ["jan", "feb", "mar", "apr", "may", "jun", "jul", "aug", "sep", "oct", "nov", "dec"]

def monthAbbrevsCap : List String :=
  ["Jan", "Feb", "Mar", "Apr", "May", "Jun", "Jul", "Aug", "Sep", "Oct", "Nov", "Dec"]

/-- `%b` matching: the three-letter month abbreviation, case-insensitive. -/
def monthNum (m : String) : Option Nat :=
  (monthAbbrevsLower.findIdx? (· = pyLower m)).map (· + 1)

/-- A parsed Python date (the fields relevant to this program). -/
structure PyDate where
  day : Nat
  month : Nat
  year : Nat
deriving DecidableEq, Repr

/-- `%y` pivot: 00-68 are 2000-2068, 69-99 are 1969-1999. -/
def yearFrom2 (y : Nat) : Nat := if y ≤ 68 then 2000 + y else 1900 + y

def isLeapYear (y : Nat) : Bool := y % 4 = 0 && (y % 100 != 0 || y % 400 = 0)

def daysInMonth (y m : Nat) : Nat :=
  if m = 2 then (if isLeapYear y then 29 else 28)
  else if m = 4 || m = 6 || m = 9 || m = 11 then 30
  else 31

/-- `datetime.strptime(s, "%d-%b-%y")`: one or two day digits with value
1-31 (the `%d` matcher accepts no other shapes), a hyphen, a known month
abbreviation (case-insensitive), a hyphen, exactly two year digits, nothing
left over; then calendar validation of the day against the month. -/
def strptimeDMonYY (s : String) : Option PyDate :=
  match s.data with
  | [d1, d2, '-', a, b, c, '-', y1, y2] =>
    if d1.isDigit && d2.isDigit then mk (digitsToNat [d1, d2]) [a, b, c] [y1, y2]
    else none
  | [d1, '-', a, b, c, '-', y1, y2] =>
    if d1.isDigit then mk (digitsToNat [d1]) [a, b, c] [y1, y2] else none
  | _ => none
where
  mk (day : Nat) (mon : List Char) (yr : List Char) : Option PyDate :=
    if day = 0 || 31 < day then none
    else
      match monthNum ⟨mon⟩ with
      | none => none
      | some m =>
        if yr.all Char.isDigit then
          let y := yearFrom2 (digitsToNat yr)
          if day ≤ daysInMonth y m then some ⟨day, m, y⟩ else none
        else none

def pad2 (n : Nat) : String := if n < 10 then "0" ++ toString n else toString n

/-- `strftime("%b-%y")`: capitalized month abbreviation, hyphen, two-digit
year — the period key (MonthYear) of the record assembler. -/
def fmtMonYY (d : PyDate) : String :=
  (monthAbbrevsCap.getD (d.month - 1) "") ++ "-" ++ pad2 (d.year % 100)

/-- `strftime("%d-%m-%y")`: the date used in output file names. -/
def fmtDDMMYY (d : PyDate) : String :=
  pad2 d.day ++ "-" ++ pad2 d.month ++ "-" ++ pad2 (d.year % 100)

/-- `strftime("%b%y")`: the month file key of the legacy variants. -/
def fmtMonYYCompact (d : PyDate) : String :=
  (monthAbbrevsCap.getD (d.month - 1) "") ++ pad2 (d.year % 100)

namespace Claude

/-- What claude_InvDataEx.py's `process_pdf` (lines 658-764) computes and
writes on the success path: the header with its derived MonthYear, the
filename date part, the single header CSV data row, and the item rows. -/
structure ProcessOutput where
  header : Header
  month_year : String
  date_format : String
  headerRow : List String
  items : List RawItem
  itemRows : List (List String)
deriving Repr

/-- `process_pdf` (lines 658-764).  `nowDDMMYY` stands for
`datetime.now().strftime("%d-%m-%y")`, the fallback file-name date used when
the invoice date does not parse (lines 672-678; the parse failure is caught,
logged as a warning, and MonthYear is left empty — the function still writes
both CSV files and returns True).  `none` models the except-branch
(return False, nothing written), reached when the document has no pages at
all (`pdf.pages[0]` raises) or when header extraction raises IndexError
(line 258). -/
def process_pdf (file_name nowDDMMYY : String) (pages : List (List String)) :
    Option ProcessOutput :=
  match pages with
  | [] => none
  | first :: _ =>
    (extract_header file_name first).bind fun h =>
    let parsed := strptimeDMonYY h.invoice_date
    let month_year := match parsed with
      | some d => fmtMonYY d
      | none => ""
    let date_format := match parsed with
      | some d => fmtDDMMYY d
      | none => nowDDMMYY
    let items := extract_items file_name pages
    some
      { header := h
        month_year := month_year
        date_format := date_format
        headerRow :=
          [h.file_name, h.invoice_number, h.invoice_date, month_year,
           h.consignee_name, h.consignee_address, h.consignee_gstin,
           h.consignee_state, h.consignee_contact, h.consignee_email,
           h.buyer_name, h.buyer_address, h.buyer_gstin, h.buyer_state,
           h.buyer_contact, h.buyer_email, h.place_of_supply, h.destination]
        items := items
        itemRows := items.map fun it =>
          [it.file_name, it.invoice_number, it.item_no, it.item, it.description,
           it.qty_value, it.qty_unit, it.rate, it.amount, it.hsn_sac] }

end Claude

end PdfInv

namespace PdfInv

namespace Legacy

/-- The fields the header loop of InvDataEx.py's `process_pdf`
(lines 37-62) accumulates. -/
structure Scan where
  invoice_number : String := ""
  invoice_date_str : String := ""
  place_of_delivery : String := ""
deriving DecidableEq, Repr

/-- One iteration of the header loop of lines 37-62 (without the consignee
block): on the first stripped line matching the SC pattern, capture the
invoice number and the *last* `\b`-bounded date-pattern match on that line;
on every line containing `Place of Supply`, capture the greedy after-colon
value (last wins). -/
def scanStep (st : Scan) (l : String) : Scan :=
  let line := pyStrip l
  let st1 :=
    if st.invoice_number = "" && (scanFirst matchSCAt line.data).isSome then
      { st with
        invoice_number := (searchSC line).getD ""
        invoice_date_str :=
          match (pyFindAllDates line).getLast? with
          | some d => d
          | none => st.invoice_date_str }
    else st
  if pyContains line "Place of Supply" then
    match searchPlaceOfSupplyGreedy line with
    | some v => { st1 with place_of_delivery := pyStrip v }
    | none => st1
  else st1

/-- The whole header loop. -/
def headerScan (lines : List String) : Scan :=
  lines.foldl scanStep {}

/-- The keyword alternation of the consignee-name re.split (line 92). -/
def nameSplitKws : List String :=
  ["Dispatch Doc No.", "Delivery Note Date", "Dispatched through", "Destination",
   "Terms of Delivery", "GSTIN", "State Name", "E-Mail"]

/-- The address stop keywords (lines 75-78), matched case-sensitively. -/
def stopKws : List String :=
  ["Buyer (Bill to)", "Terms of Delivery", "Dispatched through",
   "Dispatch Doc No.", "Delivery Note Date", "Destination", "GSTIN",
   "State Name", "E-Mail"]

/-- The part of `s` before the earliest occurrence of any keyword
(part 0 of the re.split on the keyword alternation). -/
def splitFirstAny (kws : List String) (s : String) : String :=
  ⟨go s.data⟩
where
  go : List Char → List Char
    | [] => []
    | c :: t =>
      if kws.any (fun kw => kw.data.isPrefixOf (c :: t)) then []
      else c :: go t

/-- The failure modes of InvDataEx.py's `process_pdf`: an IndexError when a
`Consignee (Ship to)` line is the document's last line (lines 67/89 read the
following line), a NameError at the diagnostic print of line 108 when no
consignee line exists (`consignee_start` is never assigned), and the
explicit ValueError of lines 117-120 when the invoice date does not parse. -/
inductive Err where
  | indexError
  | noConsignee
  | invalidDate
deriving DecidableEq, Repr

/-- Lines 64-105: the consignee name and the collected address lines,
scanned from the first `Consignee (Ship to)` line: the next line split
before any layout keyword is the name; the following up to ten lines are
address lines, stopping at a stop keyword and skipping blanks. -/
def consigneeOf (lines : List String) : Except Err (String × List String) :=
  match (List.range lines.length).find? fun i =>
      pyContains (lines.getD i "") "Consignee (Ship to)" with
  | none => .error .noConsignee
  | some cstart =>
    if lines.length ≤ cstart + 1 ∨
        pyContains ((lines.getLast?).getD "") "Consignee (Ship to)" then
      .error .indexError
    else
      let line_after := pyStrip (lines.getD (cstart + 1) "")
      let name := pyStrip (splitFirstAny nameSplitKws line_after)
      let addr := collect (List.range' (cstart + 2) 10)
      .ok (name, addr)
where
  collect : List Nat → List String
    | [] => []
    | i :: rest =>
      if lines.length ≤ i then []
      else
        let clean := pyStrip (lines.getD i "")
        if clean = "" then collect rest
        else if stopKws.any (fun kw => pyContains clean kw) then []
        else clean :: collect rest

/-- `", ".join(dict.fromkeys(consignee_address))` (line 105). -/
def cleanedAddress (addr : List String) : String :=
  pyJoin ", " (dedupFirstSeen addr)

/-- The anchored line-item pattern of line 126, tail after the lazy
description group: whitespace, a 5+-digit run, whitespace, a digit run,
`NOS`, a `[0-9,]+.dd` decimal, `NOS`, a decimal, end of line.  Returns
(qty, rate, total) with the captured decimal texts. -/
def itemTailAt (cs : List Char) : Option (String × String × String) := do
  let w1 := (cs.takeWhile isWs).length
  if w1 = 0 then none
  let r1 := cs.drop w1
  let d1 := r1.takeWhile Char.isDigit
  if d1.length < 5 then none
  let r2 := r1.drop d1.length
  let w2 := (r2.takeWhile isWs).length
  if w2 = 0 then none
  let r3 := r2.drop w2
  let d2 := r3.takeWhile Char.isDigit
  if d2.isEmpty then none
  let r4 := r3.drop d2.length
  let (v1, r5) ← nosDecimal r4
  let (v2, r6) ← nosDecimal r5
  if r6.isEmpty then some (⟨d2⟩, ⟨v1⟩, ⟨v2⟩) else none
where
  /-- `\s+NOS\s+([0-9,]+\.\d\d)`: returns the decimal group and the rest. -/
  nosDecimal (cs : List Char) : Option (List Char × List Char) := do
    let w := (cs.takeWhile isWs).length
    if w = 0 then none
    let r := cs.drop w
    if ("NOS".data).isPrefixOf r then
      let r1 := r.drop 3
      let w2 := (r1.takeWhile isWs).length
      if w2 = 0 then none
      let r2 := r1.drop w2
      let run := r2.takeWhile fun c => c.isDigit || c = ','
      if run.isEmpty then none
      match r2.drop run.length with
      | '.' :: a :: b :: rest =>
        if a.isDigit && b.isDigit then
          some (run ++ '.' :: [a, b], rest)
        else none
      | _ => none
    else none

/-- re.match of the anchored item pattern (line 126): leading digit group,
greedy whitespace tried longest first, lazy description group tried shortest
first, then the deterministic tail reaching the end of the line.  Returns
(item number, description, qty, rate, total). -/
def itemMatch (s : String) : Option (String × String × String × String × String) :=
  let cs := s.data
  let d := cs.takeWhile Char.isDigit
  if d.isEmpty then none
  else
    let afterD := cs.drop d.length
    let maxW := (afterD.takeWhile isWs).length
    if maxW = 0 then none
    else
      (List.range' 1 maxW).reverse.findSome? fun w =>
        let rem := afterD.drop w
        (List.range (rem.length + 1)).findSome? fun j =>
          (itemTailAt (rem.drop j)).map fun g =>
            (⟨d⟩, ⟨rem.take j⟩, g.1, g.2.1, g.2.2)

/-- One CSV row of the legacy extractor (lines 142-153). -/
structure Row where
  invoice_date : String
  invoice_number : String
  consignee_name : String
  consignee_address : String
  place_of_delivery : String
  item_no : String
  description : String
  qty : String
  rate : String
  total : String
deriving DecidableEq, Repr

/-- The dedup key of lines 163-169: the fields, each stripped, joined by
`|`. -/
def rowKey (r : Row) : String :=
  pyJoin "|" ([r.invoice_date, r.invoice_number, r.consignee_name,
    r.consignee_address, r.place_of_delivery, r.item_no, r.description,
    r.qty, r.rate, r.total].map pyStrip)

/-- Drop rows whose key was already seen, keeping first occurrences. -/
def dedupRowsAux (seen : List String) : List Row → List Row
  | [] => []
  | r :: rs =>
    if rowKey r ∈ seen then dedupRowsAux seen rs
    else r :: dedupRowsAux (rowKey r :: seen) rs

def dedupRows (rows : List Row) : List Row := dedupRowsAux [] rows

/-- The line-item loop of lines 124-169: a matching line flushes the current
item and starts a new one; any other line is appended (with a space) to the
current description, including blank lines; a final flush, then row-level
deduplication. -/
def itemRows (scan : Scan) (name addr : String) (lines : List String) : List Row :=
  let fin := lines.foldl
    (fun (st : Option Row × List Row) l =>
      let line := pyStrip l
      match itemMatch line with
      | some (n, desc, q, r, t) =>
        let flushed := match st.1 with
          | some cur => st.2 ++ [cur]
          | none => st.2
        (some { invoice_date := scan.invoice_date_str
                invoice_number := scan.invoice_number
                consignee_name := name
                consignee_address := addr
                place_of_delivery := scan.place_of_delivery
                item_no := n
                description := desc
                qty := q
                rate := pyReplace r "," ""
                total := pyReplace t "," "" }, flushed)
      | none =>
        match st.1 with
        | some cur => (some { cur with description := cur.description ++ " " ++ line }, st.2)
        | none => st)
    (none, [])
  dedupRows (match fin.1 with
    | some cur => fin.2 ++ [cur]
    | none => fin.2)

/-- The success value of the legacy `process_pdf`: the scanned header
fields, the derived month file key, and the deduplicated CSV rows. -/
structure Out where
  scan : Scan
  consignee_name : String
  cleaned_address : String
  month_file : String
  rows : List Row
deriving Repr

/-- InvDataEx.py `process_pdf` (lines 20-193) over the concatenated lines of
all pages: header scan, consignee block (its two failure modes), the
invoice-date gate of lines 117-120 (ValueError aborts the document before
any CSV output exists), then line items and rows. -/
def process_pdf (lines : List String) : Except Err Out :=
  let scan := headerScan lines
  match consigneeOf lines with
  | .error e => .error e
  | .ok (name, addr) =>
    let cleaned := cleanedAddress addr
    match strptimeDMonYY scan.invoice_date_str with
    | none => .error .invalidDate
    | some d =>
      .ok { scan := scan
            consignee_name := name
            cleaned_address := cleaned
            month_file := fmtMonYYCompact d
            rows := itemRows scan name cleaned lines }

end Legacy

end PdfInv

namespace PdfInv

namespace Svc

/-- The summary trigger keywords of src/unnamed/part_000 (lines 89-93),
matched case-insensitively as substrings. -/
def summaryTriggers : List String :=
  ["output cgst", "output sgst", "output igst", "amount chargeable",
   "tax amount", "total", "company", "bank", "authorised signatory",
   "declaration", "terms & conditions", "subject to", "value rate"]

def isSummaryLine (l : String) : Bool :=
  summaryTriggers.any fun kw => pyContains (pyLower l) kw

/-- re.match of `^(\d` x1-3 `)\s+(.*)` (line 120): one to three leading
digits (a longer digit run cannot match), whitespace, and the greedy rest of
the line.  Returns (item number, rest). -/
def newItemMatch (clean : String) : Option (String × String) :=
  let ds := clean.data.takeWhile Char.isDigit
  if ds.length = 0 || 3 < ds.length then none
  else
    let rest := clean.data.drop ds.length
    let ws := (rest.takeWhile isWs).length
    if ws = 0 then none
    else some (⟨ds⟩, ⟨rest.drop ws⟩)

/-- The deterministic tail of the standard-item regex (line 129) after the
lazy prefix: `\s+(\d` 5+ `)\s+(\d+)\s+NOS\s+([0-9,.]+)\s+NOS\s+([0-9,.]+)`.
Returns (code, qty, rate text, total text). -/
def stdTailAt (cs : List Char) : Option (String × String × String × String) := do
  let w1 := (cs.takeWhile isWs).length
  if w1 = 0 then none
  let r1 := cs.drop w1
  let d1 := r1.takeWhile Char.isDigit
  if d1.length < 5 then none
  let r2 := r1.drop d1.length
  let w2 := (r2.takeWhile isWs).length
  if w2 = 0 then none
  let r3 := r2.drop w2
  let d2 := r3.takeWhile Char.isDigit
  if d2.isEmpty then none
  let r4 := r3.drop d2.length
  let (v1, r5) ← nosClassRun r4
  let (v2, _) ← nosClassRun r5
  some (⟨d1⟩, ⟨d2⟩, ⟨v1⟩, ⟨v2⟩)
where
  /-- `\s+NOS\s+([0-9,.]+)`: returns the class run and the rest. -/
  nosClassRun (cs : List Char) : Option (List Char × List Char) := do
    let w := (cs.takeWhile isWs).length
    if w = 0 then none
    let r := cs.drop w
    if ("NOS".data).isPrefixOf r then
      let r1 := r.drop 3
      let w2 := (r1.takeWhile isWs).length
      if w2 = 0 then none
      let r2 := r1.drop w2
      let run := r2.takeWhile isDecChar
      if run.isEmpty then none
      some (run, r2.drop run.length)
    else none

/-- re.search of the standard-item regex on the rest of a new-item line:
lazy `(.*?)` prefix, shortest first.  Returns
(description, code, qty, rate text, total text). -/
def stdSearch (rest : String) : Option (String × String × String × String × String) :=
  (List.range (rest.data.length + 1)).findSome? fun k =>
    (stdTailAt (rest.data.drop k)).map fun g =>
      (⟨rest.data.take k⟩, g.1, g.2.1, g.2.2.1, g.2.2.2)

/-- The deterministic tail of the service-item regex (line 130):
`\s+(\d` 5+ `)\s+([0-9,.]+)`. -/
def svcTailAt (cs : List Char) : Option (String × String) := do
  let w1 := (cs.takeWhile isWs).length
  if w1 = 0 then none
  let r1 := cs.drop w1
  let d1 := r1.takeWhile Char.isDigit
  if d1.length < 5 then none
  let r2 := r1.drop d1.length
  let w2 := (r2.takeWhile isWs).length
  if w2 = 0 then none
  let r3 := r2.drop w2
  let run := r3.takeWhile isDecChar
  if run.isEmpty then none
  some (⟨d1⟩, ⟨run⟩)

/-- re.search of the service-item regex: (description, code, total text). -/
def svcSearch (rest : String) : Option (String × String × String) :=
  (List.range (rest.data.length + 1)).findSome? fun k =>
    (svcTailAt (rest.data.drop k)).map fun g =>
      (⟨rest.data.take k⟩, g.1, g.2)

/-- The loop state of the line-item extraction (lines 81-87). -/
structure State where
  inSummary : Bool := false
  item_no : String := ""
  qty : String := ""
  rate : String := ""
  total : String := ""
  desc : List String := []
deriving DecidableEq, Repr

/-- One output row (lines 98-105): the five header fields followed by the
item fields.  `hdr` carries invoice date/number, consignee name/address and
place of delivery. -/
structure Row where
  hdr : List String
  item_no : String
  description : String
  qty : String
  rate : String
  total : String
deriving DecidableEq, Repr

/-- `flush_item` (lines 98-105): emit a row only when an item is open and
has description lines. -/
def flushRows (hdr : List String) (st : State) : List Row :=
  if st.item_no ≠ "" && !st.desc.isEmpty then
    [{ hdr := hdr
       item_no := st.item_no
       description := pyStrip (pyJoin " " st.desc)
       qty := st.qty
       rate := st.rate
       total := st.total }]
  else []

/-- One iteration of the loop over lines (lines 107-147). -/
def step (hdr : List String) (st : State × List Row) (l : String) : State × List Row :=
  let clean := pyStrip l
  if clean = "" then st
  else if isSummaryLine clean then ({ st.1 with inSummary := true }, st.2)
  else if st.1.inSummary then st
  else
    match newItemMatch clean with
    | some (n, rest) =>
      let rows := st.2 ++ flushRows hdr st.1
      match stdSearch rest with
      | some (g1, _, g3, g4, g5) =>
        ({ inSummary := false, item_no := n, qty := g3,
           rate := pyReplace g4 "," "", total := pyReplace g5 "," "",
           desc := [g1] }, rows)
      | none =>
        match svcSearch rest with
        | some (g1, _, g3) =>
          ({ inSummary := false, item_no := n, qty := "", rate := "",
             total := pyReplace g3 "," "", desc := [g1] }, rows)
        | none =>
          ({ inSummary := false, item_no := n, qty := "", rate := "",
             total := "", desc := [rest] }, rows)
    | none =>
      if st.1.item_no ≠ "" then
        ({ st.1 with desc := st.1.desc ++ [clean] }, st.2)
      else st

/-- The whole line-item extraction of part_000's `process_pdf`
(lines 80-149): fold the step over all lines, then the final flush. -/
def itemRows (hdr : List String) (lines : List String) : List Row :=
  let fin := lines.foldl (step hdr) ({}, [])
  fin.2 ++ flushRows hdr fin.1

end Svc

namespace Grist

/-- The outcome of the effectful calls made for one header/items CSV pair in
grist_uploader.py's `main` (lines 580-621): whether each of the two uploads
and the two moves succeeds.  Exceptions raised by the upload helper are
caught and recorded as failure (lines 584-598). -/
structure PairOutcome where
  headerUpload : Bool
  itemsUpload : Bool
  moveHeader : Bool
  moveItems : Bool
deriving DecidableEq, Repr

/-- The deduplication bookkeeping: the persisted log file contents (one
invoice number per appended line) and the in-memory processed set. -/
structure LogState where
  log : List String
  mem : List String
deriving DecidableEq, Repr

/-- `append_invoice_to_log` (lines 239-247): append the stripped invoice
number to the log file. -/
def append_invoice_to_log (log : List String) (inv : String) : List String :=
  log ++ [pyStrip inv]

/-- The per-pair bookkeeping of `main` (lines 548-621): skip the pair when
the invoice number cannot be read; move to Rejected when it is already in
the in-memory set (log untouched); otherwise upload the header, then (only
on success) the items; only when both uploads succeed and both files are
moved to the success directory is the invoice number appended to the log
file and added to the in-memory set. -/
def processPair (st : LogState) (inv : Option String) (o : PairOutcome) : LogState :=
  match inv with
  | none => st
  | some n =>
    if n ∈ st.mem then st
    else
      let header_success := o.headerUpload
      let items_success := header_success && o.itemsUpload
      if header_success && items_success then
        if o.moveHeader && o.moveItems then
          { log := append_invoice_to_log st.log n, mem := st.mem ++ [n] }
        else st
      else st

end Grist

end PdfInv

namespace PdfInv

/-! ### The spec claim's reading of the continuation loop (for comparison
with the code's `Claude.consumeConts`). -/

/-- Modelled from the spec claim's case (c): the line, after stripping a
`Total` label, is *only* a decimal number (no stripping of other leading or
trailing non-digit characters). -/
def claimTotalOnly (l : String) : Bool :=
  fullmatchDecimal (pyStrip (subTotalWord l))

/-- Modelled from the spec claim: a following line is appended to the
description unless it (a) is a new-item line by the stronger signals,
(b) matches the tax-line pattern, or (c) is only a decimal number after
stripping a `Total` label; in the stop cases accumulation ends. -/
def claimC7Collect : List String → List String
  | [] => []
  | l :: rest =>
    if isLikelyNewItem l || isTaxLine l || claimTotalOnly l then []
    else l :: claimC7Collect rest

/-- The stop condition the code's continuation loop actually uses on a
stripped line: an end-of-table marker, a likely new-item line, a tax line,
or a likely total line (non-digit edges stripped before the decimal test). -/
def codeStopLine (s : String) : Bool :=
  isEndMarker s || isLikelyNewItem s || isTaxLine s || isLikelyTotalLine s

/-! ### Concrete input documents used by the counterexamples and witnesses -/

/-- A one-page document whose header has no date-shaped token at all, so the
extracted invoice date is empty and unparseable. -/
def docNoDate : List (List String) := [["Invoice No. SC12345-01-02 no date here"]]

/-- A first page whose last line repeats the consignee marker after a
consignee/buyer pair: the section scan leaves consignee_start = len(lines)
with consignee_end set, and the real extractor raises IndexError at
line 258. -/
def pathoDoc : List String :=
  ["Consignee (Ship to)", "A", "Buyer (Bill to)", "B", "Consignee (Ship to)"]

/-- Lines for the legacy extractor: an SC line with no date, and a consignee
block, so the legacy parse reaches its date gate and fails there. -/
def legacyNoDateLines : List String :=
  ["Invoice SC12345-67-89 no date", "Consignee (Ship to)", "Name Co"]

/-- The spec's standard-item example line inside a minimal table. -/
def docWidget : List (List String) :=
  [["Sl Description of Goods HSN/SAC Quantity Rate per Amount",
    "1 Widget Assembly 123456 5 NOS 10.50 NOS 52.50",
    "Total 52.50"]]

/-- A one-page document whose candidate item lines carry the numbers
1, 2, 4, 3 in that order. -/
def docOutOfOrder : List (List String) :=
  [["Sl Description of Goods HSN/SAC Quantity Rate per Amount",
    "1 Alpha 111111 1 NOS 1.00 NOS 1.00",
    "2 Beta 222222 1 NOS 2.00 NOS 2.00",
    "4 Delta 444444 1 NOS 4.00 NOS 4.00",
    "3 Gamma 333333 1 NOS 3.00 NOS 3.00",
    "Total 10.00"]]

/-- First-page lines whose consignee address lines repeat: A, B, A, C. -/
def dupAddressLines : List String :=
  ["Consignee (Ship to)", "Name Co", "A", "B", "A", "C",
   "Buyer (Bill to)", "Buyer Co", "X", "Place of Supply : Mumbai"]

/-- An invoice-number line carrying two date-shaped substrings. -/
def twoDateLine : String := "SC12345-67-89 1-Apr-25 2-May-25"

/-- A two-page document in which item number 2 appears as a candidate item
line on both pages with identical content. -/
def docTwoPages : List (List String) :=
  [["SC11111-22-33 header",
    "Sl Description HSN/SAC Quantity",
    "1 First part 654321 2 NOS 5.00 NOS 10.00",
    "2 Svc charge 998877",
    "continued to page 2"],
   ["Sl Description HSN/SAC Quantity",
    "2 Svc charge 998877",
    "3 Last part 999999 1 NOS 7.00 NOS 7.00",
    "Amount Chargeable (in words)"]]

/-- A continuation window starting with a line that is neither a new-item
line, nor a tax line, nor only-a-decimal after stripping a `Total` label,
but that the code still treats as a total line (its non-digit edges are
stripped first). -/
def roundedWindow : List String := ["Rounded Off 0.50", "plain text"]

/-- A one-line first page carrying the invoice number and a valid date. -/
def docApr : List (List String) := [["SC12345-01-02 5-Apr-25"]]

/-- Header fields for the ServiceAware witness run. -/
def svcHdr : List String := ["1-Apr-25", "SC00001-11-22", "Acme", "A, B", "Mumbai"]

/-- A run of the ServiceAware loop from its initial state, needed to state
properties at an arbitrary reachable point of the loop. -/
def Svc.runFrom (hdr : List String) (st : Svc.State × List Svc.Row)
    (lines : List String) : List Svc.Row :=
  let fin := lines.foldl (Svc.step hdr) st
  fin.2 ++ Svc.flushRows hdr fin.1

end PdfInv

namespace PdfInv

/-! ### Helper lemmas -/

theorem dedupFirstSeenAux_sublist (seen : List String) :
    ∀ l : List String, (dedupFirstSeenAux seen l).Sublist l := by
  intro l
  induction l generalizing seen with
  | nil => simp [dedupFirstSeenAux]
  | cons x xs ih =>
    by_cases h : x ∈ seen
    · simpa [dedupFirstSeenAux, h] using (ih seen).cons x
    · simpa [dedupFirstSeenAux, h] using (ih (x :: seen)).cons₂ x

theorem mem_dedupFirstSeenAux {a : String} :
    ∀ (l : List String) (seen : List String),
      a ∈ dedupFirstSeenAux seen l ↔ a ∈ l ∧ a ∉ seen := by
  intro l
  induction l with
  | nil => simp [dedupFirstSeenAux]
  | cons x xs ih =>
    intro seen
    by_cases h : x ∈ seen
    · by_cases hax : a = x
      · subst hax
        simp [dedupFirstSeenAux, h, ih]
      · simp [dedupFirstSeenAux, h, ih, hax]
    · by_cases hax : a = x
      · subst hax
        simp [dedupFirstSeenAux, h, ih]
      · simp only [dedupFirstSeenAux, if_neg h, List.mem_cons, ih, not_or]
        tauto

theorem dedupFirstSeenAux_nodup (seen : List String) :
    ∀ l : List String, (dedupFirstSeenAux seen l).Nodup := by
  intro l
  induction l generalizing seen with
  | nil => simp [dedupFirstSeenAux]
  | cons x xs ih =>
    by_cases h : x ∈ seen
    · simpa [dedupFirstSeenAux, h] using ih seen
    · simp only [dedupFirstSeenAux, h]
      have : x ∉ dedupFirstSeenAux (x :: seen) xs := by
        intro hx
        exact ((mem_dedupFirstSeenAux xs (x :: seen)).1 hx).2 (List.mem_cons_self x seen)
      simpa [List.nodup_cons, this] using ih (x :: seen)

end PdfInv

namespace PdfInv

/-! ### Claim C1 -/

/-- C1 counterexample: a document whose extracted invoice date is
unparseable does NOT fail in claude_InvDataEx.process_pdf — the parse
succeeds, MonthYear is empty, and the full 18-column header CSV row is
still written, contradicting the claim that the whole document parse fails
with an InvalidDate error and that no partial CSV output is written.
Moreover an unparseable date is not the only outright header-extraction
failure: the dateless pathological consignee layout makes extraction raise
IndexError and process_pdf return False. -/
theorem C1_counterexample :
    (Claude.extract_header "inv.pdf" (docNoDate.headD [])).map
      (fun h => strptimeDMonYY h.invoice_date) = some none ∧
    (Claude.process_pdf "inv.pdf" "01-01-25" docNoDate).isSome = true ∧
    (Claude.process_pdf "inv.pdf" "01-01-25" docNoDate).map (·.month_year) = some "" ∧
    (Claude.process_pdf "inv.pdf" "01-01-25" docNoDate).map (·.headerRow.length)
      = some 18 ∧
    Claude.extract_header "inv.pdf" pathoDoc = none ∧
    Claude.process_pdf "inv.pdf" "01-01-25" [pathoDoc] = none :=
  ⟨by decide, by decide, by decide, by decide, by decide, rfl⟩

/-- C1 amended: in claude_InvDataEx.process_pdf, when header extraction
completes (no IndexError from a collapsed consignee section), an
unparseable invoice date is not a failure: the parse succeeds, MonthYear is
set to the empty string, the output file name falls back to the current
date, and the complete header CSV row is still written.  Only the legacy
InvDataEx.process_pdf aborts on an unparseable date (raising ValueError
before any CSV output exists), provided it survives its consignee-block
lookups. -/
theorem C1_amended (file_name nowStr : String) (first : List String)
    (rest : List (List String)) (llines : List String) (nm : String)
    (ad : List String)
    (h1 : (Claude.extract_header file_name first).map
      (fun h => strptimeDMonYY h.invoice_date) = some none)
    (h2 : Legacy.consigneeOf llines = .ok (nm, ad))
    (h3 : strptimeDMonYY ((Legacy.headerScan llines).invoice_date_str) = none) :
    (Claude.process_pdf file_name nowStr (first :: rest)).isSome = true ∧
    (Claude.process_pdf file_name nowStr (first :: rest)).map (·.month_year) = some "" ∧
    (Claude.process_pdf file_name nowStr (first :: rest)).map (·.date_format)
      = some nowStr ∧
    (Claude.process_pdf file_name nowStr (first :: rest)).map (·.headerRow.length)
      = some 18 ∧
    Legacy.process_pdf llines = .error .invalidDate := by
  cases hh : Claude.extract_header file_name first with
  | none => rw [hh] at h1; exact absurd h1 (by simp)
  | some hd =>
    have hp : strptimeDMonYY hd.invoice_date = none := by
      rw [hh] at h1; simpa using h1
    refine ⟨?_, ?_, ?_, ?_, ?_⟩
    · simp [Claude.process_pdf, hh]
    · simp [Claude.process_pdf, hh, hp]
    · simp [Claude.process_pdf, hh, hp]
    · simp [Claude.process_pdf, hh, hp]
    · simp [Legacy.process_pdf, h2, h3]

/-- C1 witness: the amended claim at the concrete no-date document. -/
theorem C1_witness :
    (Claude.process_pdf "inv.pdf" "01-01-25"
      (["Invoice No. SC12345-01-02 no date here"] :: [])).map (·.month_year) = some "" ∧
    Legacy.process_pdf legacyNoDateLines = .error .invalidDate :=
  ⟨(C1_amended "inv.pdf" "01-01-25" ["Invoice No. SC12345-01-02 no date here"] []
      legacyNoDateLines "Name Co" [] (by decide) rfl (by decide)).2.1,
   (C1_amended "inv.pdf" "01-01-25" ["Invoice No. SC12345-01-02 no date here"] []
      legacyNoDateLines "Name Co" [] (by decide) rfl (by decide)).2.2.2.2⟩

/-! ### Claim C2 -/

/-- C2 counterexample: on the claim's exact input line the extractor leaves
`hsn_sac` empty — the HSN capture demands the 6-8 digit token at the end of
the line, and this line ends in `52.50` — so `hsn_or_sac_code` is not
`123456` as claimed. -/
theorem C2_counterexample :
    (Claude.extract_items "inv.pdf" docWidget).map (·.hsn_sac) = [""] ∧
    (Claude.extract_items "inv.pdf" docWidget).map (·.hsn_sac) ≠ ["123456"] :=
  ⟨by decide, by decide⟩

/-- C2 amended: the line yields item_no 1, quantity 5, rate 10.50, amount
52.50, a description equal to `Widget Assembly` (so containing none of the
numeric tokens), and an empty `hsn_sac`: the end-anchored HSN capture does
not fire, and the mid-line 123456 token is instead stripped from the
description. -/
theorem C2_amended :
    Claude.extract_items "inv.pdf" docWidget =
      [{ file_name := "inv.pdf", invoice_number := "", item_no := "1",
         item := "Widget Assembly", description := "Widget Assembly",
         qty_value := "5", qty_unit := "NOS", rate := "10.50",
         amount := "52.50", hsn_sac := "" }] ∧
    (Claude.extract_items "inv.pdf" docWidget).all
      (fun it => pyContains it.description "Widget Assembly" &&
        !pyContains it.description "123456" && !pyContains it.description "5" &&
        !pyContains it.description "10.50" && !pyContains it.description "52.50")
      = true :=
  ⟨by decide, by decide⟩

/-! ### Claim C3 -/

/-- C3 counterexample: for candidate item numbers 1, 2, 4, 3 the output is
sorted to 1, 2, 3, 4 with every item retained, but no
ItemSegmentationAnomaly is ever triggered: the extractor performs no
strict-increase validation and its warning output is constantly empty,
contradicting the claim that an anomaly is flagged. -/
theorem C3_counterexample :
    (Claude.extract_items "inv.pdf" docOutOfOrder).map (·.item_no)
      = ["1", "2", "3", "4"] ∧
    Claude.extractItemsWarnings "inv.pdf" docOutOfOrder = [] :=
  ⟨by decide, rfl⟩

/-- C3 amended: after all pages are processed the items are sorted by item
number ascending (a stable sort of the collected items, so a permutation —
no item is dropped), and the code performs no strict-increase check and
emits no warning. -/
theorem C3_amended (fn : String) (pages : List (List String)) :
    (Claude.extract_items fn pages).Perm (Claude.extractItemsPre fn pages) ∧
    (Claude.extract_items fn pages).Pairwise
      (fun a b => pyInt a.item_no ≤ pyInt b.item_no) ∧
    Claude.extractItemsWarnings fn pages = [] := by
  refine ⟨List.perm_insertionSort _ _, ?_, rfl⟩
  have h1 : IsTotal Claude.RawItem (fun a b => pyInt a.item_no ≤ pyInt b.item_no) :=
    ⟨fun a b => Nat.le_total _ _⟩
  have h2 : IsTrans Claude.RawItem (fun a b => pyInt a.item_no ≤ pyInt b.item_no) :=
    ⟨fun _ _ _ => Nat.le_trans⟩
  exact List.sorted_insertionSort _ _

/-! ### Claim C4 -/

/-- C4 counterexample: claude_InvDataEx's header extractor does not
deduplicate address lines: collected consignee lines A, B, A, C are joined
as `A, B, A, C`, not as the order-preserving unique `A, B, C`. -/
theorem C4_counterexample :
    (Claude.extract_header "inv.pdf" dupAddressLines).map (·.consignee_address)
      = some "A, B, A, C" ∧
    (Claude.extract_header "inv.pdf" dupAddressLines).map (·.consignee_address)
      ≠ some (pyJoin ", " (dedupFirstSeen ["A", "B", "A", "C"])) :=
  ⟨by decide, by decide⟩

/-- C4 amended: only the legacy InvDataEx variant deduplicates address
lines (via dict.fromkeys), preserving first-seen order: its cleaned address
joins a duplicate-free, order-preserving (sublist) selection containing
exactly the collected lines' values; claude_InvDataEx joins the collected
lines without deduplication. -/
theorem C4_amended (ad : List String) :
    Legacy.cleanedAddress ad = pyJoin ", " (dedupFirstSeen ad) ∧
    (dedupFirstSeen ad).Nodup ∧
    (dedupFirstSeen ad).Sublist ad ∧
    (∀ x, x ∈ dedupFirstSeen ad ↔ x ∈ ad) ∧
    dedupFirstSeen ["A", "B", "A", "C"] = ["A", "B", "C"] := by
  refine ⟨rfl, dedupFirstSeenAux_nodup [] ad, dedupFirstSeenAux_sublist [] ad,
    fun x => ?_, by decide⟩
  simpa using mem_dedupFirstSeenAux ad []

end PdfInv

namespace PdfInv

/-! ### Claim C8 -/

/-- C8: whenever header extraction completes (so a record is assembled) and
the extracted invoice date string parses as a valid day-Mon-2digit-year
date, the assembled record's MonthYear period key equals the Mon-YY
projection of that same parsed date — it is derived from the parsed date
object, not independently parsed. -/
theorem C8_month_year_is_projection (file_name nowStr : String)
    (first : List String) (rest : List (List String)) (d : PyDate)
    (h : (Claude.extract_header file_name first).map
      (fun hd => strptimeDMonYY hd.invoice_date) = some (some d)) :
    (Claude.process_pdf file_name nowStr (first :: rest)).map (·.month_year)
      = some (fmtMonYY d) := by
  cases hh : Claude.extract_header file_name first with
  | none => rw [hh] at h; exact absurd h (by simp)
  | some hd =>
    have hp : strptimeDMonYY hd.invoice_date = some d := by
      rw [hh] at h; simpa using h
    simp [Claude.process_pdf, hh, hp]

/-- C8 witness: a lower-case date string `5-apr-25` parses, and the period
key is the projection `Apr-25` of the parsed date (capitalised by the
formatter, demonstrating it is derived from the date object, not copied
from the raw text). -/
theorem C8_witness :
    (Claude.process_pdf "inv.pdf" "01-01-25" docApr).map (·.month_year)
      = some "Apr-25" :=
  (C8_month_year_is_projection "inv.pdf" "01-01-25" (docApr.headD []) []
    ⟨5, 4, 2025⟩ (by decide)).trans (by decide)

/-! ### Claim C10 -/

/-- C10: in the sync client, an invoice number is appended to the persisted
deduplication log and added to the in-memory processed set exactly when the
header upload, the items upload, and both moves to the success directory
all succeed; on any upload or move failure the log and the set are left
unchanged, so the pair stays eligible for a later retry. -/
theorem C10_log_only_on_full_success (st : Grist.LogState) (n : String)
    (o : Grist.PairOutcome) (hn : n ∉ st.mem) :
    ((o.headerUpload && o.itemsUpload && o.moveHeader && o.moveItems) = true →
      Grist.processPair st (some n) o =
        { log := st.log ++ [pyStrip n], mem := st.mem ++ [n] }) ∧
    ((o.headerUpload && o.itemsUpload && o.moveHeader && o.moveItems) = false →
      Grist.processPair st (some n) o = st) ∧
    Grist.processPair st none o = st := by
  obtain ⟨hu, iu, mh, mi⟩ := o
  cases hu <;> cases iu <;> cases mh <;> cases mi <;>
    simp [Grist.processPair, Grist.append_invoice_to_log, hn]

/-- C10 witness: with invoice B not yet logged, full success appends B to
the log and the set; a failed items-file move leaves both unchanged. -/
theorem C10_witness :
    Grist.processPair ⟨["A"], ["A"]⟩ (some "B") ⟨true, true, true, true⟩
      = { log := ["A", "B"], mem := ["A", "B"] } ∧
    Grist.processPair ⟨["A"], ["A"]⟩ (some "B") ⟨true, true, true, false⟩
      = ⟨["A"], ["A"]⟩ :=
  ⟨((C10_log_only_on_full_success ⟨["A"], ["A"]⟩ "B" ⟨true, true, true, true⟩
      (by decide)).1 (by decide)).trans (by decide),
   (C10_log_only_on_full_success ⟨["A"], ["A"]⟩ "B" ⟨true, true, true, false⟩
      (by decide)).2.1 (by decide)⟩

end PdfInv

namespace PdfInv

/-! ### Claim C7 -/

/-- C7 counterexample: the line `Rounded Off 0.50` starts no new item,
matches no tax pattern, and is not only-a-decimal after stripping a `Total`
label, so by the claim it should be appended as a continuation; but the
code's total-line test also strips leading/trailing non-digit runs, treats
it as a total line, and stops accumulation without appending it. -/
theorem C7_counterexample :
    isLikelyNewItem "Rounded Off 0.50" = false ∧
    isTaxLine "Rounded Off 0.50" = false ∧
    claimTotalOnly "Rounded Off 0.50" = false ∧
    claimC7Collect (roundedWindow.map pyStrip) = ["Rounded Off 0.50", "plain text"] ∧
    Claude.consumeConts roundedWindow = ([], 0) ∧
    (Claude.consumeConts roundedWindow).1 ≠ claimC7Collect (roundedWindow.map pyStrip) :=
  ⟨by decide, by decide, by decide, by decide, by decide, by decide⟩

/-- C7 amended: while consuming continuation lines, each following line is
stripped; blank lines are skipped (consumed but not appended); the first
line that is an end-of-table marker, a new-item line by the stronger
signals, a tax line, or a likely total line — where the total test strips
`Total` labels AND leading/trailing non-digit runs before requiring a
two-fraction-digit decimal — stops accumulation unappended; every earlier
non-blank line is appended in order. -/
theorem C7_amended (w : List String) :
    (Claude.consumeConts w).1 =
      ((w.map pyStrip).takeWhile (fun s => !codeStopLine s)).filter (· ≠ "") ∧
    (Claude.consumeConts w).2 =
      ((w.map pyStrip).takeWhile (fun s => !codeStopLine s)).length := by
  induction w with
  | nil => simp [Claude.consumeConts]
  | cons l rest ih =>
    by_cases h1 : isEndMarker (pyStrip l)
    · have hstop : codeStopLine (pyStrip l) = true := by simp [codeStopLine, h1]
      simp [Claude.consumeConts, h1, hstop]
    · by_cases h2 : pyStrip l = ""
      · have he : isEndMarker "" = false := by decide
        have hstop : codeStopLine "" = false := by decide
        simp [Claude.consumeConts, h1, h2, he, hstop, ih]
      · by_cases h3 : isLikelyNewItem (pyStrip l)
        · have hstop : codeStopLine (pyStrip l) = true := by simp [codeStopLine, h3]
          simp [Claude.consumeConts, h1, h2, h3, hstop]
        · by_cases h4 : isTaxLine (pyStrip l)
          · have hstop : codeStopLine (pyStrip l) = true := by simp [codeStopLine, h4]
            simp [Claude.consumeConts, h1, h2, h3, h4, hstop]
          · by_cases h5 : isLikelyTotalLine (pyStrip l)
            · have hstop : codeStopLine (pyStrip l) = true := by
                simp [codeStopLine, h5]
              simp [Claude.consumeConts, h1, h2, h3, h4, h5, hstop]
            · have hstop : codeStopLine (pyStrip l) = false := by
                simp [codeStopLine, h1, h3, h4, h5]
              simp [Claude.consumeConts, h1, h2, h3, h4, h5, hstop, ih]

end PdfInv

namespace PdfInv

/-! ### Claim C5 -/

theorem stringMk_ne_empty {m : List Char} (h : m ≠ []) : (⟨m⟩ : String) ≠ "" := by
  intro he
  apply h
  have hd : (⟨m⟩ : String).data = ("" : String).data := by rw [he]
  simpa using hd

theorem matchSCAt_ne_nil {cs m : List Char} (h : matchSCAt cs = some m) : m ≠ [] := by
  unfold matchSCAt at h
  split at h
  · split at h
    · simp only [Option.some.injEq] at h
      subst h
      simp
    · simp at h
  · simp at h

theorem scanFirst_some {α : Type} {p : List Char → Option α} :
    ∀ {cs : List Char} {a : α}, scanFirst p cs = some a → ∃ cs', p cs' = some a := by
  intro cs
  induction cs with
  | nil => exact fun h => ⟨[], h⟩
  | cons c t ih =>
    intro a h
    rw [scanFirst] at h
    cases hp : p (c :: t) with
    | some b =>
      rw [hp] at h
      exact ⟨c :: t, by rw [hp]; exact h⟩
    | none =>
      rw [hp] at h
      exact ih h

/-- The two header fields of interest after one `scanStep`. -/
theorem scanStep_fields (st : Legacy.Scan) (l : String) :
    (Legacy.scanStep st l).invoice_number =
      (if st.invoice_number = "" ∧ (scanFirst matchSCAt (pyStrip l).data).isSome = true
       then (searchSC (pyStrip l)).getD "" else st.invoice_number) ∧
    (Legacy.scanStep st l).invoice_date_str =
      (if st.invoice_number = "" ∧ (scanFirst matchSCAt (pyStrip l).data).isSome = true
       then ((pyFindAllDates (pyStrip l)).getLast?).getD st.invoice_date_str
       else st.invoice_date_str) := by
  by_cases hc : st.invoice_number = "" ∧ (scanFirst matchSCAt (pyStrip l).data).isSome = true
  · have hb : (decide (st.invoice_number = "") &&
        (scanFirst matchSCAt (pyStrip l).data).isSome) = true := by
      simp [hc.1, hc.2]
    constructor
    · rw [if_pos hc]
      simp only [Legacy.scanStep, hb, if_true]
      split
      · split <;> rfl
      · rfl
    · rw [if_pos hc]
      simp only [Legacy.scanStep, hb, if_true]
      split
      · split <;> (cases hg : (pyFindAllDates (pyStrip l)).getLast? <;> simp [hg])
      · cases hg : (pyFindAllDates (pyStrip l)).getLast? <;> simp [hg]
  · have hb : (decide (st.invoice_number = "") &&
        (scanFirst matchSCAt (pyStrip l).data).isSome) = false := by
      rcases not_and_or.mp hc with h | h
      · simp [h]
      · simp only [Bool.and_eq_false_iff]
        right
        simpa using h
    constructor
    · rw [if_neg hc]
      simp only [Legacy.scanStep, hb, Bool.false_eq_true, if_false]
      split
      · split <;> rfl
      · rfl
    · rw [if_neg hc]
      simp only [Legacy.scanStep, hb, Bool.false_eq_true, if_false]
      split
      · split <;> rfl
      · rfl

/-- Folding the header scan over lines without an SC match leaves the
invoice number and date untouched. -/
theorem foldl_scan_no_sc (pre : List String) :
    ∀ st : Legacy.Scan,
      (∀ l ∈ pre, scanFirst matchSCAt (pyStrip l).data = none) →
      (pre.foldl Legacy.scanStep st).invoice_number = st.invoice_number ∧
      (pre.foldl Legacy.scanStep st).invoice_date_str = st.invoice_date_str := by
  induction pre with
  | nil => exact fun st _ => ⟨rfl, rfl⟩
  | cons l pre ih =>
    intro st h
    have h0 := h l (List.mem_cons_self _ _)
    have hf := scanStep_fields st l
    rw [List.foldl_cons]
    have h2 := ih (Legacy.scanStep st l) fun l' hl' => h l' (List.mem_cons_of_mem _ hl')
    refine ⟨h2.1.trans ?_, h2.2.trans ?_⟩
    · rw [hf.1, if_neg]
      rintro ⟨-, hs⟩
      rw [h0] at hs
      simp at hs
    · rw [hf.2, if_neg]
      rintro ⟨-, hs⟩
      rw [h0] at hs
      simp at hs

/-- Once the invoice number is non-empty, later lines change neither the
invoice number nor the invoice date. -/
theorem foldl_scan_keeps (post : List String) :
    ∀ st : Legacy.Scan, st.invoice_number ≠ "" →
      (post.foldl Legacy.scanStep st).invoice_number = st.invoice_number ∧
      (post.foldl Legacy.scanStep st).invoice_date_str = st.invoice_date_str := by
  induction post with
  | nil => exact fun st _ => ⟨rfl, rfl⟩
  | cons l post ih =>
    intro st h
    have hf := scanStep_fields st l
    have hno : ¬(st.invoice_number = "" ∧
        (scanFirst matchSCAt (pyStrip l).data).isSome = true) := by
      rintro ⟨h1, -⟩
      exact h h1
    rw [List.foldl_cons]
    have hnum : (Legacy.scanStep st l).invoice_number = st.invoice_number := by
      rw [hf.1, if_neg hno]
    have hdate : (Legacy.scanStep st l).invoice_date_str = st.invoice_date_str := by
      rw [hf.2, if_neg hno]
    have h2 := ih (Legacy.scanStep st l) (by rw [hnum]; exact h)
    exact ⟨h2.1.trans hnum, h2.2.trans hdate⟩

/-- C5 amended: the header extractor of the legacy InvDataEx variant takes
the *last* day-Mon-yy-shaped match on the first invoice-number-bearing line
as the invoice date; claude_InvDataEx's extractor instead takes the *first*
date-pattern match found in a window around the invoice-number line (see
the counterexample). -/
theorem C5_amended (pre post : List String) (l : String)
    (hpre : ∀ l' ∈ pre, scanFirst matchSCAt (pyStrip l').data = none)
    (hsc : (scanFirst matchSCAt (pyStrip l).data).isSome = true)
    (hdates : pyFindAllDates (pyStrip l) ≠ []) :
    (Legacy.headerScan (pre ++ l :: post)).invoice_date_str =
      (pyFindAllDates (pyStrip l)).getLastD "" := by
  unfold Legacy.headerScan
  rw [List.foldl_append, List.foldl_cons]
  obtain ⟨hn0, hd0⟩ := foldl_scan_no_sc pre {} hpre
  set st0 := pre.foldl Legacy.scanStep {} with hst0
  have hf := scanStep_fields st0 l
  have hcond : st0.invoice_number = "" ∧
      (scanFirst matchSCAt (pyStrip l).data).isSome = true := ⟨hn0, hsc⟩
  have hnum : (Legacy.scanStep st0 l).invoice_number = (searchSC (pyStrip l)).getD "" := by
    rw [hf.1, if_pos hcond]
  have hdate : (Legacy.scanStep st0 l).invoice_date_str =
      ((pyFindAllDates (pyStrip l)).getLast?).getD st0.invoice_date_str := by
    rw [hf.2, if_pos hcond]
  obtain ⟨m, hm⟩ := Option.isSome_iff_exists.mp hsc
  have hne : (Legacy.scanStep st0 l).invoice_number ≠ "" := by
    rw [hnum]
    have hss : searchSC (pyStrip l) = some ⟨m⟩ := by
      unfold searchSC
      rw [hm]
      rfl
    rw [hss, Option.getD_some]
    obtain ⟨cs', hcs'⟩ := scanFirst_some hm
    exact stringMk_ne_empty (matchSCAt_ne_nil hcs')
  have hkeep := foldl_scan_keeps post (Legacy.scanStep st0 l) hne
  rw [hkeep.2, hdate]
  cases hd : (pyFindAllDates (pyStrip l)).getLast? with
  | none => exact absurd (List.getLast?_eq_none_iff.mp hd) hdates
  | some d =>
    rw [Option.getD_some, List.getLastD_eq_getLast?, hd, Option.getD_some]

/-- C5 counterexample: on a line carrying the invoice number and two
date-shaped substrings, claude_InvDataEx's header extractor picks the
*first* match, not the last. -/
theorem C5_counterexample :
    pyFindAllDates twoDateLine = ["1-Apr-25", "2-May-25"] ∧
    (Claude.extract_header "inv.pdf" [twoDateLine]).map (·.invoice_date)
      = some "1-Apr-25" ∧
    (Claude.extract_header "inv.pdf" [twoDateLine]).map (·.invoice_date) ≠
      some ((pyFindAllDates twoDateLine).getLastD "") :=
  ⟨by decide, by decide, by decide⟩

/-- C5 witness: the amended claim at a concrete two-date invoice line. -/
theorem C5_witness :
    (Legacy.headerScan (["x"] ++ twoDateLine :: [])).invoice_date_str =
      (pyFindAllDates (pyStrip twoDateLine)).getLastD "" :=
  C5_amended ["x"] [] twoDateLine (by decide) (by decide) (by decide)

/-! ### Claim C6 -/

/-- The per-page item loop preserves the invariant that the emitted item
numbers are pairwise distinct and all recorded in the processed set. -/
theorem processItemLinesF_invariant (fn inv : String) :
    ∀ (f : Nat) (ls processed : List String) (items : List Claude.RawItem),
      (items.map (·.item_no)).Nodup →
      (∀ x ∈ items.map (·.item_no), x ∈ processed) →
      ((Claude.processItemLinesF fn inv f ls processed items).2.map (·.item_no)).Nodup ∧
      ∀ x ∈ (Claude.processItemLinesF fn inv f ls processed items).2.map (·.item_no),
        x ∈ (Claude.processItemLinesF fn inv f ls processed items).1 := by
  intro f
  induction f with
  | zero => exact fun ls processed items h1 h2 => ⟨h1, h2⟩
  | succ f ih =>
    intro ls processed items h1 h2
    match ls with
    | [] => exact ⟨h1, h2⟩
    | l :: rest =>
      simp only [Claude.processItemLinesF]
      split
      · exact ih rest processed items h1 h2
      · split
        · exact ih rest processed items h1 h2
        · rename_i hskip hmatch item_no g0 heq
          split
          · exact ih rest processed items h1 h2
          · rename_i hnotin
            have hproj : ∀ conts,
                (Claude.buildItem fn inv (pyStrip l) item_no g0 conts).item_no = item_no :=
              fun _ => rfl
            apply ih
            · have hnot : item_no ∉ items.map (·.item_no) := fun hx => hnotin (h2 _ hx)
              simp only [List.map_append, List.map_cons, List.map_nil, hproj]
              refine List.nodup_append.mpr ⟨h1, List.nodup_singleton _, ?_⟩
              intro x hx hxa
              simp only [List.mem_singleton] at hxa
              exact hnot (hxa ▸ hx)
            · intro x hx
              simp only [List.map_append, List.map_cons, List.map_nil, hproj,
                List.mem_append, List.mem_cons, List.not_mem_nil, or_false] at hx
              rcases hx with hx | hx
              · exact List.mem_append_left _ (h2 x hx)
              · simp [hx]

/-- The invariant carried across all pages. -/
theorem pagesFold_invariant (fn inv : String) :
    ∀ (pages : List (List String)) (st : List String × List Claude.RawItem),
      (st.2.map (·.item_no)).Nodup →
      (∀ x ∈ st.2.map (·.item_no), x ∈ st.1) →
      ((pages.foldl (Claude.pageStep fn inv) st).2.map (·.item_no)).Nodup ∧
      ∀ x ∈ (pages.foldl (Claude.pageStep fn inv) st).2.map (·.item_no),
        x ∈ (pages.foldl (Claude.pageStep fn inv) st).1 := by
  intro pages
  induction pages with
  | nil => exact fun st h1 h2 => ⟨h1, h2⟩
  | cons p ps ih =>
    intro st h1 h2
    rw [List.foldl_cons]
    have h := processItemLinesF_invariant fn inv (Claude.tableSlice p).length
      (Claude.tableSlice p) st.1 st.2 h1 h2
    exact ih _ h.1 h.2

/-- The final item list carries pairwise-distinct item numbers. -/
theorem extract_items_nodup (fn : String) (pages : List (List String)) :
    ((Claude.extract_items fn pages).map (·.item_no)).Nodup := by
  have h := pagesFold_invariant fn (Claude.invoiceNumberOfLines (pages.headD []))
    pages ([], []) (by simp) (by simp)
  have hperm : (Claude.extract_items fn pages).Perm (Claude.extractItemsPre fn pages) :=
    List.perm_insertionSort _ _
  exact (hperm.map (·.item_no)).symm.nodup h.1

/-- C6: the processed-item-number set is carried across all pages of a
document, so every item number present in the final item list occurs
exactly once — an item number that is a candidate line on two pages is
emitted only the first time. -/
theorem C6_cross_page_dedup (fn : String) (pages : List (List String)) (n : String)
    (h : n ∈ (Claude.extract_items fn pages).map (·.item_no)) :
    ((Claude.extract_items fn pages).map (·.item_no)).count n = 1 :=
  List.count_eq_one_of_mem (extract_items_nodup fn pages) h

/-- C6 witness: in the two-page document item number 2 appears as a
candidate item line on both pages, is present in the output, and is counted
exactly once. -/
theorem C6_witness :
    ((Claude.extract_items "inv.pdf" docTwoPages).map (·.item_no)).count "2" = 1 :=
  C6_cross_page_dedup "inv.pdf" docTwoPages "2" (by decide)

end PdfInv

namespace PdfInv

/-! ### Claim C9 -/

/-- A new-item match never yields an empty item number: the pattern requires
at least one leading digit. -/
theorem newItemMatch_no_ne_empty {clean n rest : String}
    (h : Svc.newItemMatch clean = some (n, rest)) : n ≠ "" := by
  simp only [Svc.newItemMatch] at h
  split at h
  · exact absurd h (by simp)
  · rename_i hcond
    split at h
    · exact absurd h (by simp)
    · simp only [Option.some.injEq, Prod.mk.injEq] at h
      rw [← h.1]
      apply stringMk_ne_empty
      intro hnil
      simp [hnil] at hcond

/-- One loop step never removes an already-emitted row. -/
theorem step_rows_mono (hdr : List String) (st : Svc.State × List Svc.Row)
    (l : String) (r : Svc.Row) (h : r ∈ st.2) : r ∈ (Svc.step hdr st l).2 := by
  simp only [Svc.step]
  repeat' split
  all_goals first
    | exact h
    | exact List.mem_append_left _ h

/-- Rows already emitted survive to the end of the run. -/
theorem runFrom_rows_mono (hdr : List String) :
    ∀ (lines : List String) (st : Svc.State × List Svc.Row) (r : Svc.Row),
      r ∈ st.2 → r ∈ Svc.runFrom hdr st lines := by
  intro lines
  induction lines with
  | nil =>
    intro st r h
    show r ∈ st.2 ++ Svc.flushRows hdr st.1
    exact List.mem_append_left _ h
  | cons l ls ih =>
    intro st r h
    show r ∈ Svc.runFrom hdr (Svc.step hdr st l) ls
    exact ih _ r (step_rows_mono hdr st l r h)

/-- `flush_item` on an open item with a nonempty description emits exactly
that item's row. -/
theorem flushRows_open (hdr : List String) (s : Svc.State)
    (hno : s.item_no ≠ "") (hdesc : s.desc ≠ []) :
    Svc.flushRows hdr s =
      [{ hdr := hdr, item_no := s.item_no,
         description := pyStrip (pyJoin " " s.desc),
         qty := s.qty, rate := s.rate, total := s.total }] := by
  simp [Svc.flushRows, hno, List.isEmpty_iff, hdesc]

/-- An open item with a nonempty description is eventually emitted: some run
of continuation lines is appended to its description, and its row, with the
quantity, rate and total the state holds now, is in the output. -/
theorem openItem_emitted (hdr : List String) :
    ∀ (lines : List String) (st : Svc.State × List Svc.Row),
      st.1.item_no ≠ "" → st.1.desc ≠ [] →
      ∃ ds, { hdr := hdr, item_no := st.1.item_no,
              description := pyStrip (pyJoin " " (st.1.desc ++ ds)),
              qty := st.1.qty, rate := st.1.rate, total := st.1.total : Svc.Row }
            ∈ Svc.runFrom hdr st lines := by
  intro lines
  induction lines with
  | nil =>
    intro st hno hdesc
    refine ⟨[], ?_⟩
    rw [List.append_nil]
    show _ ∈ st.2 ++ Svc.flushRows hdr st.1
    rw [flushRows_open hdr st.1 hno hdesc]
    exact List.mem_append_right _ (List.mem_singleton.mpr rfl)
  | cons l ls ih =>
    intro st hno hdesc
    have hrun : Svc.runFrom hdr st (l :: ls) = Svc.runFrom hdr (Svc.step hdr st l) ls := rfl
    rw [hrun]
    by_cases h1 : pyStrip l = ""
    · have hs : Svc.step hdr st l = st := by simp [Svc.step, h1]
      rw [hs]; exact ih st hno hdesc
    · by_cases h2 : Svc.isSummaryLine (pyStrip l) = true
      · have hs : Svc.step hdr st l = ({ st.1 with inSummary := true }, st.2) := by
          simp [Svc.step, h1, h2]
        rw [hs]
        exact ih _ hno hdesc
      · simp only [Bool.not_eq_true] at h2
        by_cases h3 : st.1.inSummary = true
        · have hs : Svc.step hdr st l = st := by simp [Svc.step, h1, h2, h3]
          rw [hs]; exact ih st hno hdesc
        · simp only [Bool.not_eq_true] at h3
          cases hm : Svc.newItemMatch (pyStrip l) with
          | some p =>
            have h2' : (Svc.step hdr st l).2 = st.2 ++ Svc.flushRows hdr st.1 := by
              cases p with
              | mk n rest =>
                simp only [Svc.step, h1, h2, h3, hm, if_neg, Bool.false_eq_true,
                  if_false]
                cases hstd : Svc.stdSearch rest with
                | some g =>
                  obtain ⟨g1, g2, g3, g4, g5⟩ := g
                  simp
                | none =>
                  cases hsvc : Svc.svcSearch rest with
                  | some g =>
                    obtain ⟨g1, g2, g3⟩ := g
                    simp
                  | none => simp
            refine ⟨[], ?_⟩
            rw [List.append_nil]
            apply runFrom_rows_mono hdr ls
            rw [h2', flushRows_open hdr st.1 hno hdesc]
            exact List.mem_append_right _ (List.mem_singleton.mpr rfl)
          | none =>
            have hs : Svc.step hdr st l =
                ({ st.1 with desc := st.1.desc ++ [pyStrip l] }, st.2) := by
              simp [Svc.step, h1, h2, h3, hm, hno]
            rw [hs]
            obtain ⟨ds, hds⟩ :=
              ih ({ st.1 with desc := st.1.desc ++ [pyStrip l] }, st.2) hno (by simp)
            exact ⟨[pyStrip l] ++ ds, by simpa [List.append_assoc] using hds⟩

/-- C9: a line matching the new-item pattern whose remainder fails both the
standard-item and the service-item disambiguation regexes is still accepted
as a new item: the output contains a row whose item number is the leading
integer, whose description is the whole remainder of the line joined with
the continuation lines consumed after it, and whose quantity, rate and total
are all empty — the line is never dropped. -/
theorem C9_fallback_item (hdr : List String) (ls : List String)
    (st : Svc.State × List Svc.Row) (l n rest : String)
    (h1 : pyStrip l ≠ "")
    (h2 : Svc.isSummaryLine (pyStrip l) = false)
    (h3 : st.1.inSummary = false)
    (hm : Svc.newItemMatch (pyStrip l) = some (n, rest))
    (hstd : Svc.stdSearch rest = none)
    (hsvc : Svc.svcSearch rest = none) :
    ∃ ds, { hdr := hdr, item_no := n,
            description := pyStrip (pyJoin " " (rest :: ds)),
            qty := "", rate := "", total := "" : Svc.Row }
          ∈ Svc.runFrom hdr st (l :: ls) := by
  have hrun : Svc.runFrom hdr st (l :: ls) = Svc.runFrom hdr (Svc.step hdr st l) ls := rfl
  have hs : Svc.step hdr st l =
      ({ inSummary := false, item_no := n, qty := "", rate := "", total := "",
         desc := [rest] }, st.2 ++ Svc.flushRows hdr st.1) := by
    simp [Svc.step, h1, h2, h3, hm, hstd, hsvc]
  rw [hrun, hs]
  have hres := openItem_emitted hdr ls
    ({ inSummary := false, item_no := n, qty := "", rate := "", total := "",
       desc := [rest] }, st.2 ++ Svc.flushRows hdr st.1)
    (newItemMatch_no_ne_empty hm) (by simp)
  simpa using hres

/-- C9 witness: the line "7 Special packing charges" fails both
disambiguation regexes yet yields item 7 with the remainder as description
and empty quantity, rate and total. -/
theorem C9_witness :
    ∃ ds, { hdr := svcHdr, item_no := "7",
            description := pyStrip (pyJoin " " ("Special packing charges" :: ds)),
            qty := "", rate := "", total := "" : Svc.Row }
          ∈ Svc.runFrom svcHdr ({}, []) ["7 Special packing charges"] :=
  C9_fallback_item svcHdr [] ({}, []) "7 Special packing charges" "7"
    "Special packing charges" (by decide) (by decide) (by decide) (by decide)
    (by decide) (by decide)

end PdfInv
